import Mathlib

/-!
A verification development for the rlox bytecode interpreter
(scanner → parser → convertor (compiler) → stack virtual machine).

The Rust sources are modelled as a shallow embedding:
* machine doubles (`f64`) are modelled as exact rationals `ℚ`; the
  saturating Rust cast `as i64` is `f64_as_i64` below,
* `Rc<String>` is `String`, `Vec<T>` is `List T`,
* fallible code returns `Except`-style results; a Rust `panic!`
  (`unwrap` on `None`, out-of-bounds index, `todo!`) is an explicit
  `panic`-constructor of the result type,
* loops whose bound is not structural take a fuel parameter; running out
  of fuel is a separate result constructor, never confused with
  divergence or panic,
* source positions `(row, col)` are carried by tokens but the parallel
  `positions` vector of `Chunk` (used only for diagnostics) is omitted:
  a chunk is its list of opcodes.

Modelled files: src/rlox/scanner.rs, src/rlox/parser.rs,
src/rlox/types.rs, src/rlox/expr.rs, src/rlox/stmt.rs,
src/rlox/bytecode_interpreter/{opcode.rs, chunk.rs, environment.rs,
convertor.rs, vm.rs}.
-/

namespace RLox

/-- Saturating truncation of a double toward zero, Rust's `as i64`
(the doubles themselves are modelled as rationals). -/
def f64_as_i64 (q : ℚ) : ℤ :=
  let t : ℤ := if 0 ≤ q then ⌊q⌋ else ⌈q⌉
  max (-(2 ^ 63)) (min (2 ^ 63 - 1) t)

/-- Rust `i64` `%`: remainder of truncated division (sign of the dividend). -/
def i64_rem (a b : ℤ) : ℤ := Int.tmod a b

/-- types.rs `FuncType`. -/
inductive FuncType where
  | Main
  | Normal
  | Method
  | Lambda
  | StaticMethod
  | Initializer
deriving DecidableEq, Repr

/-- The `Display` impl of types.rs `FuncType` (used in parser error
messages). -/
def FuncType.display : FuncType → String
  | .Normal => "Function"
  | .Method | .Initializer => "Method"
  | .Lambda => "Lambda"
  | .Main => ""
  | .StaticMethod => "StaticMethod"

/-- types.rs `TokenType`. -/
inductive TokenType where
  | Colon | LeftParen | RightParen | LeftBrace | RightBrace
  | Comma | Dot | Minus | Plus | QuestionMark | Semicolon
  | Slash | Star | Mod
  | Bang | BangEqual | Equal | EqualEqual
  | Greater | GreaterEqual | Less | LessEqual
  | PlusEqual | MinusEqual | StarEqual | SlashEqual | ModEqual
  | Identifier | String | Number
  | And | Class | Else | False | Func | For | If | Nil | Or
  | Print | Return | Super | RSelf | True | Let | While
  | Continue | Break | Static | Extend
  | Eof
deriving DecidableEq, Repr

mutual

/-- types.rs `Literal`, the runtime value domain.  `Number` carries a
rational standing for the `f64`. -/
inductive Literal where
  | string : String → Literal
  | number : ℚ → Literal
  | bool : Bool → Literal
  | function : Function → Literal
  | nil : Literal

/-- types.rs `Function` plus chunk.rs `Chunk`: the chunk is its opcode
list (the parallel position vector, used only for diagnostics, is
omitted).  Fields: name, chunk codes, arity, func_type. -/
inductive Function where
  | mk : String → List OpCode → Nat → FuncType → Function

/-- opcode.rs `OpCode`. -/
inductive OpCode where
  | Return
  | Load : Literal → OpCode
  | Negate | Add | Sub | Mul | Div | Mod
  | Not | Eq | Less | Greater
  | Print | Pop
  | DefineGlobal : String → OpCode
  | GetGlobal : String → OpCode
  | SetGlobal : String → OpCode
  | GetLocal : Nat → OpCode
  | SetLocal : Nat → OpCode
  | Jump : Nat → OpCode
  | JumpForward : Nat → OpCode
  | JumpIfTrue : Nat → OpCode
  | JumpIfFalse : Nat → OpCode
  | Call : Nat → OpCode
  | AddIGlobal : String → OpCode
  | SubIGlobal : String → OpCode
  | MulIGlobal : String → OpCode
  | DivIGlobal : String → OpCode
  | ModIGlobal : String → OpCode
  | AddILocal : Nat → OpCode
  | SubILocal : Nat → OpCode
  | MulILocal : Nat → OpCode
  | DivILocal : Nat → OpCode
  | ModILocal : Nat → OpCode

end

def Function.name : Function → String
  | .mk n _ _ _ => n

def Function.codes : Function → List OpCode
  | .mk _ c _ _ => c

def Function.arity : Function → Nat
  | .mk _ _ a _ => a

def Function.func_type : Function → FuncType
  | .mk _ _ _ t => t

/-- types.rs `Literal::is_true` (the truthiness rule). -/
def Literal.is_true : Literal → Bool
  | .string _ | .number _ | .function _ => true
  | .bool b => b
  | .nil => false

def Literal.is_num : Literal → Bool
  | .number _ => true
  | _ => false

def Literal.is_string : Literal → Bool
  | .string _ => true
  | _ => false

/-- `get_num` where the caller has already checked `is_num`
(`unwrap` of the Ok); defaults to 0, unreached under the check. -/
def Literal.get_num : Literal → ℚ
  | .number n => n
  | _ => 0

def Literal.get_string : Literal → String
  | .string s => s
  | _ => ""

/-- Derived `PartialEq` of types.rs `Literal`: same-variant payload
comparison; `Function` uses its custom `PartialEq` (name and arity
only); cross-variant comparison is false. -/
def Literal.beq : Literal → Literal → Bool
  | .string a, .string b => a == b
  | .number a, .number b => a == b
  | .bool a, .bool b => a == b
  | .function f, .function g => f.name == g.name && f.arity == g.arity
  | .nil, .nil => true
  | _, _ => false

/-- `Display` of a literal.  Only the tags are faithful; the numeric
rendering abstracts the `f64` `Display` (no claim depends on it). -/
def Literal.display : Literal → String
  | .string s => s
  | .number n => toString n
  | .bool b => toString b
  | .nil => "nil"
  | .function f =>
      if f.func_type = FuncType.Lambda then "<func Lambda>"
      else "<func " ++ f.name ++ ">"

/-- token.rs `Token` as used by scanner.rs / parser.rs / error.rs:
kind, lexeme, optional literal value, `(row, col)` position.  (The
`token.rs` in the snapshot is a stale copy whose fields do not match
those uses; the fields here are the ones the scanner constructs with
`Token::new`/`Token::with_literal` and the parser reads.) -/
structure Token where
  token_type : TokenType
  lexeme : String
  literal : Option Literal
  position : Nat × Nat

def Token.new (t : TokenType) (lex : String) (pos : Nat × Nat) : Token :=
  ⟨t, lex, none, pos⟩

def Token.with_literal (t : TokenType) (lex : String) (lit : Option Literal)
    (pos : Nat × Nat) : Token :=
  ⟨t, lex, lit, pos⟩

mutual

/-- expr.rs `Expression`.  (`VariableExpression` is `varE` because
`variable` is a Lean keyword; `SelfExpression` is `selfE`.) -/
inductive Expression where
  | assign : Token → Expression → Expression
  | binary : Expression → Token → Expression → Expression
  | call : Expression → Token → List Expression → Expression
  | get : Expression → Token → Expression
  | grouping : Expression → Expression
  | literal : Literal → Token → Expression
  | logical : Expression → Token → Expression → Expression
  | set : Expression → Token → Expression → Expression
  | superE : Token → Token → Expression
  | selfE : Token → Expression
  | ternary : Expression → Expression → Expression → Expression
  | unary : Token → Expression → Expression
  | varE : Token → Expression
  | lambda : List Token → List Statement → Expression
  | opAssign : Token → Token → Expression → Expression

/-- stmt.rs `Statement`.  `ExpressionStatement`'s `end` token is
`endTok` (`end` is a Lean keyword). -/
inductive Statement where
  | exprStmt : Expression → Token → Statement
  | printStmt : Expression → Token → Statement
  | varStmt : Token → Option Expression → Statement
  | multiVar : List Statement → Statement
  | block : List Statement → Statement
  | branch : Expression → Statement → Option Statement → Statement
  | whileS : Expression → Statement → Option Statement → Statement
  | continueS : Token → Statement
  | breakS : Token → Statement
  | funcS : Token → List Token → List Statement → FuncType → Statement
  | returnS : Token → Option Expression → Statement
  | classS : Token → List Statement → List Statement → Statement

end

/-! ## Scanner (src/rlox/scanner.rs)

State-passing model.  A Rust `panic` (indexing past the end in
`advance`, `unwrap` of a missing element) is `SOut.panicS`; a
`LoxError::ParseTokenError` is `SOut.errS` carrying the message.
Sources are ASCII in every use below, so `chars().nth` over the byte
length coincides with list indexing. -/

/-- scanner.rs `Scanner` fields (`tokens` accumulates in order). -/
structure SState where
  source : List Char
  prev_line_lines : List Nat
  tokens : List Token
  start : Nat
  current : Nat
  line : Nat

inductive SOut (α : Type) where
  | ok : α → SState → SOut α
  | errS : String → SOut α
  | panicS : SOut α
  | fuelS : SOut α

def SM (α : Type) : Type := SState → SOut α

instance : Monad SM where
  pure a := fun st => .ok a st
  bind m f := fun st =>
    match m st with
    | .ok a st' => f a st'
    | .errS e => .errS e
    | .panicS => .panicS
    | .fuelS => .fuelS

def getS : SM SState := fun st => .ok st st

def modifyS (f : SState → SState) : SM Unit := fun st => .ok () (f st)

def panicSM {α : Type} : SM α := fun _ => .panicS

def errSM {α : Type} (msg : String) : SM α := fun _ => .errS msg

/-- Keyword table (token.rs `KEYWORD_MAP`).  The `token.rs` in the
snapshot is a stale copy naming token types that do not exist in
types.rs; the table here maps the language's keyword list onto the
types.rs constructors the scanner's callers use. -/
def KEYWORD_MAP : List (String × TokenType) :=
  [("and", .And), ("class", .Class), ("else", .Else), ("false", .False),
   ("for", .For), ("func", .Func), ("if", .If), ("nil", .Nil),
   ("or", .Or), ("print", .Print), ("return", .Return), ("super", .Super),
   ("self", .RSelf), ("true", .True), ("let", .Let), ("while", .While),
   ("continue", .Continue), ("break", .Break), ("extend", .Extend),
   ("#[static]", .Static)]

def keyword_get (s : String) : Option TokenType :=
  (KEYWORD_MAP.find? (fun p => p.1 == s)).map (·.2)

/-- `Scanner::new`: per-line prefix sums of `len + 1` over the lines of
the source (the `prev_line_lines` table). -/
def prev_line_lines_of (source : List Char) : List Nat :=
  let lines := source.splitOn '\n'
  (List.range lines.length).map
    (fun i => (((lines.take i).map (fun l => l.length + 1)).foldl (· + ·) 0))

def Scanner.new (source : List Char) : SState :=
  ⟨source, prev_line_lines_of source, [], 0, 0, 1⟩

namespace Scanner

def is_at_end (st : SState) : Bool := st.source.length ≤ st.current

/-- `Scanner::nth`: lookahead, `'\0'` past the end. -/
def nth (st : SState) (n : Nat) : Char :=
  if st.source.length ≤ st.current + n then Char.ofNat 0
  else st.source.getD (st.current + n) (Char.ofNat 0)

/-- `Scanner::advance`: `current += 1` then read `chars().nth(current-1)`;
the `unwrap` panics past the end. -/
def advance : SM Char := fun st =>
  match st.source.get? st.current with
  | some c => .ok c { st with current := st.current + 1 }
  | none => .panicS

def expected (st : SState) (c : Char) : Bool :=
  if is_at_end st then false
  else st.source.getD st.current (Char.ofNat 0) == c

/-- Slice `source[a..b]` as a string. -/
def slice (st : SState) (a b : Nat) : String :=
  String.mk ((st.source.take b).drop a)

/-- `Scanner::add_token` (lexeme `source[start..current]`, position
`(line, start - prev_line_lines[line-1])`; the index `unwrap` panics
when the table is short). -/
def add_token (tt : TokenType) : SM Unit := fun st =>
  match st.prev_line_lines.get? (st.line - 1) with
  | none => .panicS
  | some pre =>
      .ok () { st with tokens :=
        st.tokens ++ [Token.new tt (slice st st.start st.current) (st.line, st.start - pre)] }

def add_token_with_literal (tt : TokenType) (lit : Literal) : SM Unit := fun st =>
  match st.prev_line_lines.get? (st.line - 1) with
  | none => .panicS
  | some pre =>
      .ok () { st with tokens :=
        st.tokens ++ [Token.with_literal tt (slice st st.start st.current) (some lit)
          (st.line, st.start - pre)] }

/-- The `//` comment loop of `scan_token`:
`while self.nth(0) != '\n' || !self.is_at_end() { self.advance(); }`
(the `||` is the source's own operator). -/
def comment_loop : Nat → SM Unit
  | 0 => fun _ => .fuelS
  | fuel + 1 => fun st =>
      if nth st 0 != '\n' || !is_at_end st then
        match advance st with
        | .ok _ st' => comment_loop fuel st'
        | .errS e => .errS e
        | .panicS => .panicS
        | .fuelS => .fuelS
      else .ok () st

/-- `parse_modifier`'s scan to `]`. -/
def modifier_loop : Nat → SM Unit
  | 0 => fun _ => .fuelS
  | fuel + 1 => fun st =>
      if nth st 0 != ']' && !is_at_end st then
        match advance st with
        | .ok _ st' => modifier_loop fuel st'
        | .errS e => .errS e
        | .panicS => .panicS
        | .fuelS => .fuelS
      else .ok () st

def parse_modifier (fuel : Nat) : SM Unit := do
  let _ ← advance
  modifier_loop fuel
  let st ← getS
  if is_at_end st then
    errSM "Unterminated Modifier."
  else
    let _ ← advance
    let st ← getS
    let text := slice st st.start st.current
    match keyword_get text with
    | none => errSM "Unknown modifier"
    | some tt => add_token tt

/-- `parse_string`'s scan to the closing quote (newlines bump `line`). -/
def string_loop : Nat → SM Unit
  | 0 => fun _ => .fuelS
  | fuel + 1 => fun st =>
      if nth st 0 != '"' && !is_at_end st then
        let st := if nth st 0 == '\n' then { st with line := st.line + 1 } else st
        match advance st with
        | .ok _ st' => string_loop fuel st'
        | .errS e => .errS e
        | .panicS => .panicS
        | .fuelS => .fuelS
      else .ok () st

def parse_string (fuel : Nat) : SM Unit := do
  string_loop fuel
  let st ← getS
  if is_at_end st then
    errSM "Unterminated String."
  else
    let _ ← advance
    let st ← getS
    add_token_with_literal TokenType.String
      (.string (slice st (st.start + 1) (st.current - 1)))

/-- Numeric value of a digit run (the integer part builder of the
`parse::<f64>` result). -/
def digits_val (ds : List Char) : Nat :=
  ds.foldl (fun acc c => acc * 10 + (c.toNat - '0'.toNat)) 0

/-- Value of `parse::<f64>` on `[0-9]+(\.[0-9]+)?`, as a rational. -/
def number_val (ds : List Char) : ℚ :=
  match ds.splitOn '.' with
  | [i] => (digits_val i : ℚ)
  | [i, f] => (digits_val i : ℚ) + (digits_val f : ℚ) / ((10 : ℚ) ^ f.length)
  | _ => 0

def digit_loop : Nat → SM Unit
  | 0 => fun _ => .fuelS
  | fuel + 1 => fun st =>
      if (nth st 0).isDigit then
        match advance st with
        | .ok _ st' => digit_loop fuel st'
        | .errS e => .errS e
        | .panicS => .panicS
        | .fuelS => .fuelS
      else .ok () st

def parse_number (fuel : Nat) : SM Unit := do
  digit_loop fuel
  let st ← getS
  if nth st 0 == '.' && (nth st 1).isDigit then
    let _ ← advance
    digit_loop fuel
  let st ← getS
  add_token_with_literal TokenType.Number
    (.number (number_val ((st.source.take st.current).drop st.start)))

def ident_loop : Nat → SM Unit
  | 0 => fun _ => .fuelS
  | fuel + 1 => fun st =>
      if (nth st 0).isAlphanum || nth st 0 == '_' then
        match advance st with
        | .ok _ st' => ident_loop fuel st'
        | .errS e => .errS e
        | .panicS => .panicS
        | .fuelS => .fuelS
      else .ok () st

def parse_identifier (fuel : Nat) : SM Unit := do
  ident_loop fuel
  let st ← getS
  let text := slice st st.start st.current
  match keyword_get text with
  | none => add_token TokenType.Identifier
  | some tt => add_token tt

/-- A one-or-two-character operator: if the next char is `=`, consume it
and emit the compound kind, else the simple kind. -/
def two_char (simple compound : TokenType) : SM Unit := do
  let st ← getS
  let tt ← if expected st '=' then do
      let _ ← advance
      pure compound
    else pure simple
  add_token tt

/-- scanner.rs `scan_token`. -/
def scan_token (fuel : Nat) : SM Unit := do
  let cur ← advance
  match cur with
  | '?' => add_token .QuestionMark
  | ':' => add_token .Colon
  | '(' => add_token .LeftParen
  | ')' => add_token .RightParen
  | '{' => add_token .LeftBrace
  | '}' => add_token .RightBrace
  | ',' => add_token .Comma
  | '.' => add_token .Dot
  | '+' => two_char .Plus .PlusEqual
  | '-' => two_char .Minus .MinusEqual
  | '*' => two_char .Star .StarEqual
  | ';' => add_token .Semicolon
  | '%' => two_char .Mod .ModEqual
  | '!' => two_char .Bang .BangEqual
  | '=' => two_char .Equal .EqualEqual
  | '<' => two_char .Less .LessEqual
  | '>' => two_char .Greater .GreaterEqual
  | '/' => do
      let st ← getS
      if expected st '/' then
        comment_loop fuel
      else
        two_char .Slash .SlashEqual
  | '#' => parse_modifier fuel
  | ' ' | '\r' | '\t' => pure ()
  | '\n' => modifyS (fun st => { st with line := st.line + 1 })
  | '"' => parse_string fuel
  | c =>
      if c.isDigit then parse_number fuel
      else if c.isAlpha || c == '_' then parse_identifier fuel
      else errSM "Unexpected character."

/-- The `while !is_at_end` loop of `scan_tokens`. -/
def scan_loop : Nat → SM Unit
  | 0 => fun _ => .fuelS
  | fuel + 1 => fun st =>
      if is_at_end st then .ok () st
      else
        (do
          modifyS (fun s => { s with start := s.current })
          scan_token fuel
          scan_loop fuel) st

/-- scanner.rs `scan_tokens`: scan to the end and append the `Eof`
token. -/
def scan_tokens (fuel : Nat) : SM Unit := do
  scan_loop fuel
  let st ← getS
  modifyS (fun s =>
    { s with tokens := s.tokens ++ [Token.new .Eof "" (st.line, st.start + 1)] })

end Scanner

/-- Run the scanner on a source text: the token list, or the failure. -/
def scan_source (fuel : Nat) (source : List Char) : SOut (List Token) :=
  match Scanner.scan_tokens fuel (Scanner.new source) with
  | .ok _ st => .ok st.tokens st
  | .errS e => .errS e
  | .panicS => .panicS
  | .fuelS => .fuelS

/-! ## Parser (src/rlox/parser.rs)

The Rust parser owns `(tokens, current)` and reads only through
`peek` (= `tokens[current]`), `previous` (= `tokens[current-1]`),
`advance`, `is_at_end`.  The state here is the equivalent cursor
`remaining = tokens[current..]`, `prev = tokens.get(current-1)`, which
those four primitives keep in lock-step with the source's indices.
Recoverable `LoxError`s carry the parser state (Rust mutates `self`
before propagating), so `synchronize` can resume from it. -/

structure PState where
  remaining : List Token
  prev : Option Token

/-- error.rs `LoxError` variants the parser produces. -/
inductive LoxE where
  | parseE : (Nat × Nat) → String → TokenType → String → LoxE
  | runtimeE : (Nat × Nat) → String → String → LoxE
deriving DecidableEq, Repr

inductive POut (α : Type) where
  | ok : α → PState → POut α
  | errP : LoxE → PState → POut α
  | panicP : POut α
  | fuelP : POut α

def PM (α : Type) : Type := PState → POut α

instance : Monad PM where
  pure a := fun st => .ok a st
  bind m f := fun st =>
    match m st with
    | .ok a st' => f a st'
    | .errP e st' => .errP e st'
    | .panicP => .panicP
    | .fuelP => .fuelP

def throwP {α : Type} (e : LoxE) : PM α := fun st => .errP e st

def fuelPM {α : Type} : PM α := fun _ => .fuelP

/-- Hold a parser result as a Rust `Result` value instead of
propagating it (for the places where the source stores a `Result` in a
variable and applies `?` later). -/
def attemptP {α : Type} (m : PM α) : PM (Except LoxE α) := fun st =>
  match m st with
  | .ok a st' => .ok (.ok a) st'
  | .errP e st' => .ok (.error e) st'
  | .panicP => .panicP
  | .fuelP => .fuelP

/-- Unwrap a held `Result` (the later `?`). -/
def unwrapP {α : Type} : Except LoxE α → PM α
  | .ok a => pure a
  | .error e => throwP e

namespace Parser

/-- `Parser::error`. -/
def error (t : Token) (msg : String) : LoxE :=
  .parseE t.position t.lexeme t.token_type msg

/-- `LoxError::create_runtime_error`. -/
def runtime_error (t : Token) (msg : String) : LoxE :=
  .runtimeE t.position t.lexeme msg

/-- `Parser::peek` (`tokens.get(current).unwrap()`). -/
def peek : PM Token := fun st =>
  match st.remaining with
  | t :: _ => .ok t st
  | [] => .panicP

/-- `Parser::previous` (`tokens.get(current - 1).unwrap().clone()`). -/
def previous : PM Token := fun st =>
  match st.prev with
  | some t => .ok t st
  | none => .panicP

def is_at_end : PM Bool := do
  let t ← peek
  pure (t.token_type == .Eof)

/-- `Parser::advance`. -/
def advance : PM Token := do
  let e ← is_at_end
  if !e then
    (fun st =>
      match st.remaining with
      | t :: rest => .ok () ⟨rest, some t⟩
      | [] => .panicP)
  previous

def check (tt : TokenType) : PM Bool := do
  let e ← is_at_end
  if e then pure false
  else do
    let t ← peek
    pure (t.token_type == tt)

def match_one (tt : TokenType) : PM Bool := do
  let c ← check tt
  if c then do
    let _ ← advance
    pure true
  else pure false

def match_many (tts : List TokenType) : PM Bool :=
  match tts with
  | [] => pure false
  | tt :: rest => do
      let m ← match_one tt
      if m then pure true else match_many rest

def consume (tt : TokenType) (msg : String) : PM Token := do
  let c ← check tt
  if c then advance
  else do
    let t ← peek
    throwP (error t msg)

/-- The `while !is_at_end` loop of `Parser::synchronize`. -/
def sync_loop : Nat → PM Unit
  | 0 => fuelPM
  | fuel + 1 => do
      let e ← is_at_end
      if e then pure ()
      else do
        let p ← previous
        if p.token_type == .Semicolon then pure ()
        else
          match p.token_type with
          | .Class | .Func | .Let | .For | .If | .While | .Print | .Return =>
              pure ()
          | _ => do
              let _ ← advance
              sync_loop fuel

/-- `Parser::synchronize`. -/
def synchronize : Nat → PM Unit
  | 0 => fuelPM
  | fuel + 1 => do
      let _ ← advance
      sync_loop fuel

mutual

/-- `Parser::declaration`. -/
def declaration : Nat → PM Statement
  | 0 => fuelPM
  | fuel + 1 => do
      let mLet ← match_one .Let
      if mLet then do
        let r ← attemptP (var_declaration fuel)
        match r with
        | .ok s => pure s
        | .error e => do
            synchronize fuel
            throwP e
      else do
        let mFunc ← match_one .Func
        if mFunc then do
          let r ← attemptP (function fuel FuncType.Normal)
          match r with
          | .ok s => pure s
          | .error e => do
              synchronize fuel
              throwP e
        else do
          let r ← attemptP (statement fuel)
          match r with
          | .ok s => pure s
          | .error e => do
              synchronize fuel
              throwP e

/-- `Parser::function_params_and_body`. -/
def function_params_and_body : Nat → PM (List Token × List Statement)
  | 0 => fuelPM
  | fuel + 1 => do
      let params ← params_loop fuel []
      let _ ← consume .RightParen "Expect ')' after parameters."
      let _ ← consume .LeftBrace "Expect '\x7b' before function body."
      let body ← block_statement fuel
      pure (params, body)

/-- The parameter loop of `function_params_and_body`
(`while !check(RightParen) { if params.len() > 256 { error } … }`). -/
def params_loop : Nat → List Token → PM (List Token)
  | 0, _ => fuelPM
  | fuel + 1, params => do
      let stop ← check .RightParen
      if stop then pure params
      else
        if params.length > 256 then do
          let t ← peek
          throwP (error t "The maximum number of parameters is 256.")
        else do
          let p ← consume .Identifier "Expect parameter name."
          let c ← check .Comma
          if c then do
            let _ ← advance
            params_loop fuel (params ++ [p])
          else params_loop fuel (params ++ [p])

/-- `Parser::function`.  The snapshot's `create_expression_statement`
and `create_function_statement` calls omit the `end`/`function_type`
fields that stmt.rs declares; placeholders are supplied (nothing
modelled reads them: the `end` token feeds only the omitted position
table, and the convertor ignores `function_type`). -/
def function : Nat → FuncType → PM Statement
  | 0, _ => fuelPM
  | fuel + 1, kind => do
      let c ← check .LeftParen
      if c then do
        let _ ← consume .LeftParen "Expect '(' after func."
        let (params, body) ← function_params_and_body fuel
        pure (.exprStmt (.lambda params body) (Token.new .Semicolon ";" (0, 0)))
      else do
        let name ← consume .Identifier
          ("Expect " ++ kind.display ++ " name.")
        let _ ← consume .LeftParen
          ("Expect '(' after " ++ kind.display ++ " name.")
        let (params, body) ← function_params_and_body fuel
        pure (.funcS name params body kind)

/-- `Parser::var_declaration`. -/
def var_declaration : Nat → PM Statement
  | 0 => fuelPM
  | fuel + 1 => do
      let vars ← var_loop fuel []
      let _ ← consume .Semicolon "Expect ';' after value"
      pure (.multiVar vars)

def var_loop : Nat → List Statement → PM (List Statement)
  | 0, _ => fuelPM
  | fuel + 1, vars => do
      let e ← is_at_end
      let semi ← check .Semicolon
      if !e && !semi then do
        let name ← consume .Identifier "Expect a variable name."
        let mEq ← match_one .Equal
        let init ← if mEq then do
            let i ← ternary fuel
            pure (some i)
          else pure none
        let semi2 ← check .Semicolon
        if !semi2 then do
          let _ ← consume .Comma "Expect ',' after value"
          var_loop fuel (vars ++ [.varStmt name init])
        else var_loop fuel (vars ++ [.varStmt name init])
      else pure vars

/-- `Parser::statement`. -/
def statement : Nat → PM Statement
  | 0 => fuelPM
  | fuel + 1 => do
      let m ← match_one .For
      if m then for_statement fuel else do
      let m ← match_one .If
      if m then branch_statement fuel else do
      let m ← match_one .Print
      if m then print_statement fuel else do
      let m ← match_one .Return
      if m then return_statement fuel else do
      let m ← match_one .While
      if m then while_statement fuel else do
      let m ← match_one .Break
      if m then do
        let t ← previous
        let _ ← consume .Semicolon "Expect ';' after 'break'"
        pure (.breakS t)
      else do
      let m ← match_one .Continue
      if m then do
        let t ← previous
        let _ ← consume .Semicolon "Expect ';' after 'continue'"
        pure (.continueS t)
      else do
      let m ← match_one .LeftBrace
      if m then do
        let stmts ← block_statement fuel
        pure (.block stmts)
      else expression_statement fuel

/-- `Parser::return_statement`. -/
def return_statement : Nat → PM Statement
  | 0 => fuelPM
  | fuel + 1 => do
      let kw ← previous
      let semi ← check .Semicolon
      let value ← if semi then pure none
        else do
          let v ← expression fuel
          pure (some v)
      let _ ← consume .Semicolon "Expect ';' after return value."
      pure (.returnS kw value)

/-- `Parser::for_statement` (desugars to a while with retained
increment). -/
def for_statement : Nat → PM Statement
  | 0 => fuelPM
  | fuel + 1 => do
      let _ ← consume .LeftParen "Expect '(' after 'for'"
      let cLet ← check .Let
      let init ← if cLet then do
          let _ ← advance
          let d ← var_declaration fuel
          pure (some d)
        else do
          let cSemi ← check .Semicolon
          if cSemi then do
            let _ ← advance
            pure none
          else do
            let s ← expression_statement fuel
            pure (some s)
      let cSemi ← check .Semicolon
      let condition ← if cSemi then pure none
        else do
          let c ← expression fuel
          pure (some c)
      let _ ← consume .Semicolon "Expect ';' after loop condition"
      let cRP ← check .RightParen
      let increment ← if cRP then pure none
        else do
          let e ← expression fuel
          pure (some (Statement.exprStmt e (Token.new .Semicolon ";" (0, 0))))
      let _ ← consume .RightParen "Expect ')' after 'for'"
      let body0 ← statement fuel
      let (body1, incr) :=
        match increment with
        | some inc => (Statement.block [body0, inc], some inc)
        | none => (body0, none)
      let cond :=
        match condition with
        | some c => c
        | none => Expression.literal (.bool true) (Token.new .True "true" (0, 0))
      let body2 := Statement.whileS cond body1 incr
      let body3 :=
        match init with
        | some i => Statement.block [i, body2]
        | none => body2
      pure body3

/-- `Parser::while_statement`. -/
def while_statement : Nat → PM Statement
  | 0 => fuelPM
  | fuel + 1 => do
      let _ ← consume .LeftParen "Expect '(' after 'if'"
      let condition ← expression fuel
      let _ ← consume .RightParen "Expect ')' after the condition"
      let body ← statement fuel
      pure (.whileS condition body none)

/-- `Parser::branch_statement`. -/
def branch_statement : Nat → PM Statement
  | 0 => fuelPM
  | fuel + 1 => do
      let _ ← consume .LeftParen "Expect '(' after 'if'"
      let condition ← expression fuel
      let _ ← consume .RightParen "Expect ')' after the condition"
      let thenB ← statement fuel
      let mElse ← match_one .Else
      let elseB ← if mElse then do
          let e ← statement fuel
          pure (some e)
        else pure none
      pure (.branch condition thenB elseB)

/-- `Parser::block_statement` (errors propagate; no catch here). -/
def block_statement : Nat → PM (List Statement)
  | 0 => fuelPM
  | fuel + 1 => block_loop fuel []

def block_loop : Nat → List Statement → PM (List Statement)
  | 0, _ => fuelPM
  | fuel + 1, acc => do
      let cRB ← check .RightBrace
      let e ← is_at_end
      if !cRB && !e then do
        let s ← declaration fuel
        block_loop fuel (acc ++ [s])
      else do
        let _ ← consume .RightBrace "Expect '\x7d' after block"
        pure acc

/-- `Parser::print_statement`. -/
def print_statement : Nat → PM Statement
  | 0 => fuelPM
  | fuel + 1 => do
      let kw ← previous
      let value ← expression fuel
      let _ ← consume .Semicolon "Expect ';' after value"
      pure (.printStmt value kw)

/-- `Parser::expression_statement` (placeholder `end` token, see
`function`). -/
def expression_statement : Nat → PM Statement
  | 0 => fuelPM
  | fuel + 1 => do
      let e ← expression fuel
      let _ ← consume .Semicolon "Expect ';' after value"
      pure (.exprStmt e (Token.new .Semicolon ";" (0, 0)))

/-- `Parser::expression`. -/
def expression : Nat → PM Expression
  | 0 => fuelPM
  | fuel + 1 => assignment fuel

/-- `Parser::assignment`. -/
def assignment : Nat → PM Expression
  | 0 => fuelPM
  | fuel + 1 => do
      let expr ← or_ fuel
      let mEq ← match_one .Equal
      if mEq then do
        let eq ← previous
        let value ← assignment fuel
        match expr with
        | .varE name => pure (.assign name value)
        | _ => throwP (runtime_error eq "Invalid assignment target")
      else pure expr

/-- `Parser::or` (the loop is `while match_one(Or) && !is_at_end`). -/
def or_ : Nat → PM Expression
  | 0 => fuelPM
  | fuel + 1 => do
      let e ← and_ fuel
      or_loop fuel e

def or_loop : Nat → Expression → PM Expression
  | 0, _ => fuelPM
  | fuel + 1, e => do
      let m ← match_one .Or
      if m then do
        let atEnd ← is_at_end
        if atEnd then pure e
        else do
          let op ← previous
          let right ← and_ fuel
          or_loop fuel (.logical e op right)
      else pure e

/-- `Parser::and`. -/
def and_ : Nat → PM Expression
  | 0 => fuelPM
  | fuel + 1 => do
      let e ← ternary fuel
      and_loop fuel e

def and_loop : Nat → Expression → PM Expression
  | 0, _ => fuelPM
  | fuel + 1, e => do
      let m ← match_one .And
      if m then do
        let atEnd ← is_at_end
        if atEnd then pure e
        else do
          let op ← previous
          let right ← ternary fuel
          and_loop fuel (.logical e op right)
      else pure e

/-- `Parser::ternary`.  `cmp` is held as a `Result` (the source applies
`?` only inside the `create_ternary_expression` call). -/
def ternary : Nat → PM Expression
  | 0 => fuelPM
  | fuel + 1 => do
      let cmp ← attemptP (equality fuel)
      let mQ ← match_one .QuestionMark
      if mQ then do
        let tv ← attemptP (ternary fuel)
        let mC ← match_one .Colon
        if mC then do
          let fv ← attemptP (ternary fuel)
          let c ← unwrapP cmp
          let t ← unwrapP tv
          let f ← unwrapP fv
          pure (.ternary c t f)
        else do
          let t ← peek
          throwP (error t "Expected ':' after expression")
      else unwrapP cmp

/-- `Parser::equality` (held-`Result` accumulator, `?` applied in the
loop body). -/
def equality : Nat → PM Expression
  | 0 => fuelPM
  | fuel + 1 => do
      let e ← attemptP (comparison fuel)
      equality_loop fuel e

def equality_loop : Nat → Except LoxE Expression → PM Expression
  | 0, _ => fuelPM
  | fuel + 1, e => do
      let m ← match_many [.BangEqual, .EqualEqual]
      if m then do
        let op ← previous
        let right ← attemptP (comparison fuel)
        let el ← unwrapP e
        let rr ← unwrapP right
        equality_loop fuel (.ok (.binary el op rr))
      else unwrapP e

/-- `Parser::comparison`. -/
def comparison : Nat → PM Expression
  | 0 => fuelPM
  | fuel + 1 => do
      let e ← attemptP (term fuel)
      comparison_loop fuel e

def comparison_loop : Nat → Except LoxE Expression → PM Expression
  | 0, _ => fuelPM
  | fuel + 1, e => do
      let m ← match_many [.Greater, .GreaterEqual, .Less, .LessEqual]
      if m then do
        let op ← previous
        let right ← attemptP (term fuel)
        let el ← unwrapP e
        let rr ← unwrapP right
        comparison_loop fuel (.ok (.binary el op rr))
      else unwrapP e

/-- `Parser::term`. -/
def term : Nat → PM Expression
  | 0 => fuelPM
  | fuel + 1 => do
      let e ← attemptP (factor fuel)
      term_loop fuel e

def term_loop : Nat → Except LoxE Expression → PM Expression
  | 0, _ => fuelPM
  | fuel + 1, e => do
      let m ← match_many [.Plus, .Minus]
      if m then do
        let op ← previous
        let right ← attemptP (factor fuel)
        let el ← unwrapP e
        let rr ← unwrapP right
        term_loop fuel (.ok (.binary el op rr))
      else unwrapP e

/-- `Parser::factor`.  The operator set is `[Star, Slash]` exactly as in
the source — `Mod` is absent. -/
def factor : Nat → PM Expression
  | 0 => fuelPM
  | fuel + 1 => do
      let e ← attemptP (unary fuel)
      factor_loop fuel e

def factor_loop : Nat → Except LoxE Expression → PM Expression
  | 0, _ => fuelPM
  | fuel + 1, e => do
      let m ← match_many [.Star, .Slash]
      if m then do
        let op ← previous
        let right ← attemptP (unary fuel)
        let el ← unwrapP e
        let rr ← unwrapP right
        factor_loop fuel (.ok (.binary el op rr))
      else unwrapP e

/-- `Parser::unary`. -/
def unary : Nat → PM Expression
  | 0 => fuelPM
  | fuel + 1 => do
      let m ← match_many [.Bang, .Minus, .Plus]
      if m then do
        let op ← previous
        let right ← attemptP (unary fuel)
        let rr ← unwrapP right
        pure (.unary op rr)
      else call fuel

/-- `Parser::call`. -/
def call : Nat → PM Expression
  | 0 => fuelPM
  | fuel + 1 => do
      let callee ← primary fuel
      let m ← match_one .LeftParen
      if m then do
        let args ← arguments fuel
        let paren ← consume .RightParen "Expect ')' after arguments"
        pure (.call callee paren args)
      else pure callee

/-- `Parser::arguments` (`if args.len() > 256 { error }` before each
push). -/
def arguments : Nat → PM (List Expression)
  | 0 => fuelPM
  | fuel + 1 => arguments_loop fuel []

def arguments_loop : Nat → List Expression → PM (List Expression)
  | 0, _ => fuelPM
  | fuel + 1, args => do
      let stop ← check .RightParen
      if stop then pure args
      else
        if args.length > 256 then do
          let t ← peek
          throwP (error t "The maximum number of arguments is 256.")
        else do
          let a ← expression fuel
          let c ← check .Comma
          if c then do
            let _ ← advance
            arguments_loop fuel (args ++ [a])
          else arguments_loop fuel (args ++ [a])

/-- `Parser::lambda`. -/
def lambda : Nat → PM Expression
  | 0 => fuelPM
  | fuel + 1 => do
      let _ ← consume .LeftParen "Expect '(' after func."
      let (params, body) ← function_params_and_body fuel
      pure (.lambda params body)

/-- `Parser::primary`. -/
def primary : Nat → PM Expression
  | 0 => fuelPM
  | fuel + 1 => do
      let m ← match_one .False
      if m then pure (.literal (.bool false) (Token.new .False "false" (0, 0))) else do
      let m ← match_one .True
      if m then pure (.literal (.bool true) (Token.new .True "true" (0, 0))) else do
      let m ← match_one .Nil
      if m then pure (.literal .nil (Token.new .Nil "nil" (0, 0))) else do
      let m ← match_many [.Number, .String]
      if m then do
        let t ← previous
        match t.literal with
        | some v => pure (.literal v t)
        | none => fun _ => .panicP
      else do
      let m ← match_one .Identifier
      if m then do
        let t ← previous
        pure (.varE t)
      else do
      let m ← match_one .LeftParen
      if m then do
        let e ← attemptP (expression fuel)
        let _ ← consume .RightParen "Expect ')' after expression."
        let ee ← unwrapP e
        pure (.grouping ee)
      else do
      let m ← match_one .Func
      if m then lambda fuel
      else do
        let t ← peek
        match t.token_type with
        | .Star | .Slash | .Comma | .Greater | .GreaterEqual | .Less
        | .LessEqual | .EqualEqual | .BangEqual =>
            throwP (error t ("Expect a expression before '" ++ t.lexeme ++ "'"))
        | _ => throwP (error t "Expect expression.")

end

/- In `primary`, the snapshot's `create_literal_expression` receives
only the value while expr.rs declares `LiteralExpression { value,
token }`; the model carries the `previous` token where the source has
one at hand and a placeholder keyword token otherwise — the convertor
reads only its position, which is not modelled. -/

/-- The `while !is_at_end` loop of `Parser::parse`: collect statements,
catch per-declaration errors. -/
def parse_loop : Nat → List Statement → List LoxE → PM (List Statement × List LoxE)
  | 0, _, _ => fuelPM
  | fuel + 1, stmts, errs => do
      let e ← is_at_end
      if e then pure (stmts, errs)
      else do
        let r ← attemptP (declaration fuel)
        match r with
        | .ok s => parse_loop fuel (stmts ++ [s]) errs
        | .error pe => parse_loop fuel stmts (errs ++ [pe])

/-- `Parser::parse`. -/
def parse (fuel : Nat) : PM (Except (List LoxE) (List Statement)) := do
  let (stmts, errs) ← parse_loop fuel [] []
  if errs.isEmpty then pure (.ok stmts) else pure (.error errs)

end Parser

/-- Run the parser on a token list (`Parser::new` + `parse`). -/
def parse_tokens (fuel : Nat) (tokens : List Token) :
    POut (Except (List LoxE) (List Statement)) :=
  Parser.parse fuel ⟨tokens, none⟩

/-- Run the expression entry point on a token list (for claims about
the expression grammar). -/
def parse_expression (fuel : Nat) (tokens : List Token) : POut Expression :=
  Parser.expression fuel ⟨tokens, none⟩

/-! ## Compile-time scopes (src/rlox/bytecode_interpreter/environment.rs)

The `var_map` field of `Scopes` is a redundant reverse index kept in
lock-step with `variables` (indices of each name in push order, popped
together with the entries); `find_variable`'s walk of
`var_map[name].iter().rev()` therefore returns the largest index whose
entry has the name, which is what the model computes directly on
`variables`.  The unused `count` field is omitted. -/

structure Scopes where
  vars : List (String × Nat)
  depth : Nat

namespace Scopes

def begin_scope (s : Scopes) : Scopes := { s with depth := s.depth + 1 }

/-- Length of the run of entries deeper than `d` at the end of the
variable list (counted on the reversed list): `end_scope`'s
`while … last().1 > depth { push Pop; pop }` loop pops exactly that
run, emitting one `Pop` each. -/
def trailing_deeper (d : Nat) : List (String × Nat) → Nat
  | [] => 0
  | (_, vd) :: rest => if d < vd then trailing_deeper d rest + 1 else 0

/-- `Scopes::end_scope`: decrement depth, pop entries deeper than the
new depth, one `Pop` opcode per entry.  (`depth -= 1` on a `usize`; all
call sites have `depth ≥ 1`.) -/
def end_scope (s : Scopes) : Scopes × List OpCode :=
  let d := s.depth - 1
  let k := trailing_deeper d s.vars.reverse
  ({ s with depth := d, vars := s.vars.take (s.vars.length - k) },
   List.replicate k OpCode.Pop)

/-- `Scopes::will_delete_var_by_depth`: one `Pop` per variable strictly
deeper than `depth` (entries are not removed). -/
def will_delete_var_by_depth (s : Scopes) (depth : Nat) : List OpCode :=
  List.replicate ((s.vars.filter (fun p => depth < p.2)).length) OpCode.Pop

def is_variable_at_same_depth (s : Scopes) (name : String) (depth : Nat) : Bool :=
  s.vars.any (fun p => p.1 == name && p.2 == depth)

/-- `Scopes::define_variable`: `none` is the `Err(())` (duplicate at
the same depth), otherwise the entry is pushed. -/
def define_variable (s : Scopes) (name : String) (depth : Nat) : Option Scopes :=
  if is_variable_at_same_depth s name depth then none
  else some { s with vars := s.vars ++ [(name, depth)] }

/-- `Scopes::find_variable`: the largest index of an entry with the
name, `none` for `Err(())`. -/
def find_variable (s : Scopes) (name : String) : Option Nat :=
  (s.vars.enum.reverse.find? (fun p => p.2.1 == name)).map (·.1)

end Scopes

/-! ## Convertor (src/rlox/bytecode_interpreter/convertor.rs)

The convertor struct holds `function` (name, chunk, arity, func_type)
plus the compile state.  `name`, `arity` and `func_type` are never
assigned after `Convertor::new` / `Convertor::default` construct the
function with arity 0 (only `visit_function_statement` mutates the
arity of the *returned sub-function* it receives from a nested
convertor), so the model threads only the mutable fields and
`convert` reassembles the `Function` at the end.  The process-global
`LAMBDA_ID` counter behind `Function::lambda_name` is threaded through
the state as `lambda_id`. -/

structure ConvState where
  codes : List OpCode
  scopes : Scopes
  break_position : List Nat
  continue_position : List Nat
  loop_body_depth : Nat
  is_returned : Bool
  func_type : FuncType
  lambda_id : Nat

inductive CErr where
  | lox : LoxE → CErr
  | panicC : CErr
  | fuelC : CErr

inductive CRes (α : Type) where
  | ok : α → ConvState → CRes α
  | errC : CErr → ConvState → CRes α

def CM (α : Type) : Type := ConvState → CRes α

instance : Monad CM where
  pure a := fun st => .ok a st
  bind m f := fun st =>
    match m st with
    | .ok a st' => f a st'
    | .errC e st' => .errC e st'

def throwC {α : Type} (e : LoxE) : CM α := fun st => .errC (.lox e) st

def panicCM {α : Type} : CM α := fun st => .errC .panicC st

def fuelCM {α : Type} : CM α := fun st => .errC .fuelC st

def getC : CM ConvState := fun st => .ok st st

def modifyC (f : ConvState → ConvState) : CM Unit := fun st => .ok () (f st)

/-- Hold a conversion result as a Rust `Result` value (errors keep the
mutated state, as the Rust `self` does). -/
def attemptC {α : Type} (m : CM α) : CM (Except CErr α) := fun st =>
  match m st with
  | .ok a st' => .ok (.ok a) st'
  | .errC (.lox e) st' => .ok (.error (.lox e)) st'
  | .errC .panicC st' => .errC .panicC st'
  | .errC .fuelC st' => .errC .fuelC st'

namespace Convertor

/-- `Chunk::write` on the current chunk: append, return the index. -/
def write (op : OpCode) : CM Nat := fun st =>
  .ok st.codes.length { st with codes := st.codes ++ [op] }

/-- `Convertor::patch_jump_opcode` (`get_mut(index).unwrap()` panics on
a bad index; non-jump opcodes are left unchanged). -/
def patch_jump_opcode (index : Nat) : CM Unit := fun st =>
  let cur := st.codes.length - 1
  match st.codes.get? index with
  | none => .errC .panicC st
  | some c =>
      match c with
      | .Jump _ => .ok () { st with codes := st.codes.set index (.Jump (cur - index)) }
      | .JumpIfFalse _ =>
          .ok () { st with codes := st.codes.set index (.JumpIfFalse (cur - index)) }
      | .JumpIfTrue _ =>
          .ok () { st with codes := st.codes.set index (.JumpIfTrue (cur - index)) }
      | _ => .ok () st

/-- `Convertor::handle_continue_jump`: patch (at most) the most recent
pending `continue`. -/
def handle_continue_jump : CM Unit := fun st =>
  if st.continue_position.isEmpty then .ok () st
  else
    let cur := st.codes.length - 1
    match st.continue_position.getLast? with
    | none => .errC .panicC st
    | some pos =>
        let st := { st with continue_position := st.continue_position.dropLast }
        match st.codes.get? pos with
        | none => .errC .panicC st
        | some (.Jump _) =>
            .ok () { st with codes := st.codes.set pos (.Jump (cur - pos)) }
        | some _ => .ok () st

/-- `Convertor::handle_break_jump`, exactly as written: when a break is
pending, the patch index is popped from the **continue** list
(`self.continue_position.pop().unwrap()`, a panic when that list is
empty), and one entry of the break list is then discarded. -/
def handle_break_jump : CM Unit := fun st =>
  if st.break_position.isEmpty then .ok () st
  else
    let cur := st.codes.length - 1
    match st.continue_position.getLast? with
    | none => .errC .panicC st
    | some pos =>
        let st := { st with continue_position := st.continue_position.dropLast }
        match st.codes.get? pos with
        | none => .errC .panicC st
        | some c =>
            let st :=
              match c with
              | .Jump _ => { st with codes := st.codes.set pos (.Jump (cur - pos)) }
              | _ => st
            .ok () { st with break_position := st.break_position.dropLast }

/-- `Convertor::begin_scope`. -/
def begin_scope : CM Unit :=
  modifyC (fun st => { st with scopes := st.scopes.begin_scope })

/-- `Convertor::end_scope` (writes the returned `Pop`s to the chunk). -/
def end_scope : CM Unit :=
  modifyC (fun st =>
    let (s', codes) := st.scopes.end_scope
    { st with scopes := s', codes := st.codes ++ codes })

/-- Lift a finished sub-conversion into the parent's state. -/
def liftSub {α : Type} : Except CErr α → CM α
  | .ok a => pure a
  | .error e => fun st => .errC e st

/-- `Convertor::new`: fresh scopes with the function's own name at
depth 0 (slot 0 reserved for the callee) and, for non-`Main`
functions, an opened scope; the function is created with arity 0. -/
def conv_new (func_name : String) (fty : FuncType) (lamId : Nat) : ConvState :=
  let s0 : Scopes := ⟨[], 0⟩
  let s1 := match s0.define_variable func_name 0 with
    | some s => s
    | none => s0
  let s2 := if fty ≠ FuncType.Main then s1.begin_scope else s1
  ⟨[], s2, [], [], 0, false, fty, lamId⟩

/-- `Convertor::default` (the entry convertor for `__main__`): default
scopes — empty, with no name entry — and `FuncType::Main`. -/
def conv_default (lamId : Nat) : ConvState :=
  ⟨[], ⟨[], 0⟩, [], [], 0, false, .Main, lamId⟩

/-- The parameter-definition loop of `visit_function_statement` /
`visit_lambda_expression`: `let depth = convertor.scopes.depth` once,
then `define_variable` per parameter with the `Result` discarded (a
duplicate parameter name is silently not redefined). -/
def define_params (ps : List Token) (st : ConvState) : ConvState :=
  let depth := st.scopes.depth
  ps.foldl
    (fun s p =>
      match s.scopes.define_variable p.lexeme depth with
      | some sc => { s with scopes := sc }
      | none => s)
    st

mutual

/-- `Expression::accept` dispatch (`Convertor` as `ExprVisitor`).  The
`get`/`set`/`super`/`self` visitors are `todo!()` (panics); the
snapshot's convertor implements no visitor at all for
`OperateAndAssignExpression` (and the parser never constructs one), so
that case is likewise a panic. -/
def convert_expression : Nat → Expression → CM Unit
  | 0, _ => fuelCM
  | fuel + 1, e =>
      match e with
      | .assign name value => visit_assign_expression fuel name value
      | .binary l op r => visit_binary_expression fuel l op r
      | .call callee paren args => visit_call_expression fuel callee paren args
      | .get _ _ => panicCM
      | .grouping inner => convert_expression fuel inner
      | .literal v tok => visit_literal_expression fuel v tok
      | .logical l op r => visit_logical_expression fuel l op r
      | .set _ _ _ => panicCM
      | .superE _ _ => panicCM
      | .selfE _ => panicCM
      | .ternary c t f => visit_ternary_expression fuel c t f
      | .unary op r => visit_unary_expression fuel op r
      | .varE name => visit_variable_expression fuel name
      | .lambda ps body => visit_lambda_expression fuel ps body
      | .opAssign _ _ _ => panicCM

/-- `Convertor::visit_assign_expression`. -/
def visit_assign_expression : Nat → Token → Expression → CM Unit
  | 0, _, _ => fuelCM
  | fuel + 1, name, value => do
      convert_expression fuel value
      let st ← getC
      match st.scopes.find_variable name.lexeme with
      | some i => do
          let _ ← write (.SetLocal i)
          pure ()
      | none => do
          let _ ← write (.SetGlobal name.lexeme)
          pure ()

/-- `Convertor::visit_binary_expression`. -/
def visit_binary_expression : Nat → Expression → Token → Expression → CM Unit
  | 0, _, _, _ => fuelCM
  | fuel + 1, l, op, r => do
      convert_expression fuel l
      convert_expression fuel r
      match op.token_type with
      | .Plus => do let _ ← write .Add; pure ()
      | .Minus => do let _ ← write .Sub; pure ()
      | .Star => do let _ ← write .Mul; pure ()
      | .Slash => do let _ ← write .Div; pure ()
      | .Mod => do let _ ← write .Mod; pure ()
      | .BangEqual => do let _ ← write .Eq; let _ ← write .Not; pure ()
      | .EqualEqual => do let _ ← write .Eq; pure ()
      | .Greater => do let _ ← write .Greater; pure ()
      | .GreaterEqual => do let _ ← write .Less; let _ ← write .Not; pure ()
      | .Less => do let _ ← write .Less; pure ()
      | .LessEqual => do let _ ← write .Greater; let _ ← write .Not; pure ()
      | _ => throwC (.runtimeE op.position op.lexeme "Unexpected operator")

/-- `Convertor::visit_call_expression`.  The callee conversion's
`Result` is dropped in the source (no `?`), so a callee error is
swallowed and argument conversion continues. -/
def visit_call_expression : Nat → Expression → Token → List Expression → CM Unit
  | 0, _, _, _ => fuelCM
  | fuel + 1, callee, _paren, args => do
      let _ ← attemptC (convert_expression fuel callee)
      convert_arguments fuel args
      let _ ← write (.Call args.length)
      pure ()

/-- The argument loop of `visit_call_expression` (each argument's
`Result` is `?`-propagated). -/
def convert_arguments : Nat → List Expression → CM Unit
  | 0, _ => fuelCM
  | _, [] => pure ()
  | fuel + 1, a :: rest => do
      convert_expression fuel a
      convert_arguments fuel rest

/-- `Convertor::visit_literal_expression`. -/
def visit_literal_expression : Nat → Literal → Token → CM Unit
  | 0, _, _ => fuelCM
  | _ + 1, v, _tok => do
      let _ ← write (.Load v)
      pure ()

/-- `Convertor::visit_logical_expression`. -/
def visit_logical_expression : Nat → Expression → Token → Expression → CM Unit
  | 0, _, _, _ => fuelCM
  | fuel + 1, l, op, r =>
      match op.token_type with
      | .And => do
          convert_expression fuel l
          let index ← write (.JumpIfFalse 0)
          let _ ← write .Pop
          convert_expression fuel r
          patch_jump_opcode index
      | .Or => do
          convert_expression fuel l
          let index ← write (.JumpIfTrue 0)
          let _ ← write .Pop
          convert_expression fuel r
          patch_jump_opcode index
      | _ => throwC (.runtimeE op.position op.lexeme "Unexpected operator")

/-- `Convertor::visit_ternary_expression`. -/
def visit_ternary_expression : Nat → Expression → Expression → Expression → CM Unit
  | 0, _, _, _ => fuelCM
  | fuel + 1, c, t, f => do
      convert_expression fuel c
      let jump_false ← write (.JumpIfFalse 0)
      let _ ← write .Pop
      convert_expression fuel t
      let jump ← write (.Jump 0)
      patch_jump_opcode jump_false
      let _ ← write .Pop
      convert_expression fuel f
      patch_jump_opcode jump

/-- `Convertor::visit_unary_expression`. -/
def visit_unary_expression : Nat → Token → Expression → CM Unit
  | 0, _, _ => fuelCM
  | fuel + 1, op, r => do
      convert_expression fuel r
      match op.token_type with
      | .Minus => do let _ ← write .Negate; pure ()
      | .Bang => do let _ ← write .Not; pure ()
      | _ => throwC (.runtimeE op.position op.lexeme "Operand must be number or bool")

/-- `Convertor::visit_variable_expression`. -/
def visit_variable_expression : Nat → Token → CM Unit
  | 0, _ => fuelCM
  | _ + 1, name => do
      let st ← getC
      match st.scopes.find_variable name.lexeme with
      | some i => do
          let _ ← write (.GetLocal i)
          pure ()
      | none => do
          let _ ← write (.GetGlobal name.lexeme)
          pure ()

/-- `Convertor::visit_lambda_expression`: a fresh sub-convertor with a
generated `$-<id>` name compiles the body; the local `arity`
(`params.len()`) is computed in the source but never assigned to the
emitted function, which keeps the arity 0 it was constructed with. -/
def visit_lambda_expression : Nat → List Token → List Statement → CM Unit
  | 0, _, _ => fuelCM
  | fuel + 1, params, body => do
      let st ← getC
      let id' := st.lambda_id + 1
      let name := "$-" ++ toString id'
      modifyC (fun s => { s with lambda_id := id' })
      let (func, lamId') ← liftSub (conv_function fuel name .Lambda params body id')
      modifyC (fun s => { s with lambda_id := lamId' })
      let _ ← write (.Load (.function func))
      pure ()

/-- `Statement::accept` dispatch (`Convertor` as `StmtVisitor`);
`visit_class_statement` is `todo!()`. -/
def convert_statement : Nat → Statement → CM Unit
  | 0, _ => fuelCM
  | fuel + 1, s =>
      match s with
      | .exprStmt e _endTok => visit_expression_statement fuel e
      | .printStmt e _kw => visit_print_statement fuel e
      | .varStmt name init => visit_var_statement fuel name init
      | .multiVar vars => convert_statements fuel vars
      | .block stmts => visit_block_statement fuel stmts
      | .branch c t e => visit_branch_statement fuel c t e
      | .whileS c body incr => visit_while_statement fuel c body incr
      | .continueS tok => visit_continue_statement fuel tok
      | .breakS tok => visit_break_statement fuel tok
      | .funcS name params body _fty => visit_function_statement fuel name params body
      | .returnS kw value => visit_return_statement fuel kw value
      | .classS _ _ _ => panicCM

/-- `Convertor::convert_statements`. -/
def convert_statements : Nat → List Statement → CM Unit
  | 0, _ => fuelCM
  | _, [] => pure ()
  | fuel + 1, s :: rest => do
      convert_statement fuel s
      convert_statements fuel rest

/-- `Convertor::visit_expression_statement` (expression, then `Pop`). -/
def visit_expression_statement : Nat → Expression → CM Unit
  | 0, _ => fuelCM
  | fuel + 1, e => do
      convert_expression fuel e
      let _ ← write .Pop
      pure ()

/-- `Convertor::visit_print_statement`. -/
def visit_print_statement : Nat → Expression → CM Unit
  | 0, _ => fuelCM
  | fuel + 1, e => do
      convert_expression fuel e
      let _ ← write .Print
      pure ()

/-- `Convertor::visit_var_statement`. -/
def visit_var_statement : Nat → Token → Option Expression → CM Unit
  | 0, _, _ => fuelCM
  | fuel + 1, name, init => do
      match init with
      | some e => convert_expression fuel e
      | none => do
          let _ ← write (.Load .nil)
          pure ()
      let st ← getC
      if st.scopes.depth > 0 then
        match st.scopes.define_variable name.lexeme st.scopes.depth with
        | some sc => modifyC (fun s => { s with scopes := sc })
        | none =>
            throwC (.runtimeE name.position name.lexeme
              "Already a variable with this name in this scope.")
      else do
        let _ ← write (.DefineGlobal name.lexeme)
        pure ()

/-- `Convertor::visit_block_statement` (`end_scope` runs also on the
error path before the error propagates). -/
def visit_block_statement : Nat → List Statement → CM Unit
  | 0, _ => fuelCM
  | fuel + 1, stmts => do
      begin_scope
      let r ← attemptC (convert_statements fuel stmts)
      match r with
      | .ok _ => end_scope
      | .error e => do
          end_scope
          fun st => .errC e st

/-- `Convertor::visit_branch_statement`. -/
def visit_branch_statement : Nat → Expression → Statement → Option Statement → CM Unit
  | 0, _, _, _ => fuelCM
  | fuel + 1, cond, thenB, elseB => do
      convert_expression fuel cond
      let jump_false ← write (.JumpIfFalse 0)
      let _ ← write .Pop
      convert_statement fuel thenB
      match elseB with
      | some eb => do
          let jump ← write (.Jump 0)
          patch_jump_opcode jump_false
          let _ ← write .Pop
          convert_statement fuel eb
          patch_jump_opcode jump
      | none => do
          patch_jump_opcode jump_false
          let _ ← write .Pop
          pure ()

/-- `Convertor::visit_while_statement`. -/
def visit_while_statement : Nat → Expression → Statement → Option Statement → CM Unit
  | 0, _, _, _ => fuelCM
  | fuel + 1, cond, body, incr => do
      let st ← getC
      let loop_start := st.codes.length
      let pre := st.loop_body_depth
      modifyC (fun s => { s with loop_body_depth := s.scopes.depth })
      convert_expression fuel cond
      let jump_false ← write (.JumpIfFalse 0)
      let _ ← write .Pop
      convert_statement fuel body
      handle_continue_jump
      match incr with
      | some i => convert_statement fuel i
      | none => pure ()
      let st ← getC
      let cur := st.codes.length
      let _ ← write (.JumpForward (cur - loop_start + 1))
      patch_jump_opcode jump_false
      let _ ← write .Pop
      handle_break_jump
      modifyC (fun s => { s with loop_body_depth := pre })

/-- `Convertor::visit_continue_statement`: unwind-`Pop`s for locals
deeper than the loop depth, then a recorded `Jump(0)` placeholder. -/
def visit_continue_statement : Nat → Token → CM Unit
  | 0, _ => fuelCM
  | _ + 1, _tok => do
      let st ← getC
      write_all (st.scopes.will_delete_var_by_depth st.loop_body_depth)
      let idx ← write (.Jump 0)
      modifyC (fun s => { s with continue_position := s.continue_position ++ [idx] })

/-- `Convertor::visit_break_statement`. -/
def visit_break_statement : Nat → Token → CM Unit
  | 0, _ => fuelCM
  | _ + 1, _tok => do
      let st ← getC
      write_all (st.scopes.will_delete_var_by_depth st.loop_body_depth)
      let idx ← write (.Jump 0)
      modifyC (fun s => { s with break_position := s.break_position ++ [idx] })

/-- The `for_each(write)` over a returned opcode list. -/
def write_all : List OpCode → CM Unit
  | [] => pure ()
  | c :: rest => do
      let _ ← write c
      write_all rest

/-- `Convertor::visit_function_statement`: compile the body in a fresh
sub-convertor, then `func.arity = params.len()` on the returned
function before emitting it. -/
def visit_function_statement : Nat → Token → List Token → List Statement → CM Unit
  | 0, _, _, _ => fuelCM
  | fuel + 1, name, params, body => do
      let nm := name.lexeme
      let arity := params.length
      let st ← getC
      let (func0, lamId') ← liftSub (conv_function fuel nm .Normal params body st.lambda_id)
      modifyC (fun s => { s with lambda_id := lamId' })
      let func := Function.mk func0.name func0.codes arity func0.func_type
      let _ ← write (.Load (.function func))
      let st ← getC
      if st.scopes.depth == 0 then do
        let _ ← write (.DefineGlobal nm)
        pure ()
      else
        modifyC (fun s =>
          match s.scopes.define_variable nm s.scopes.depth with
          | some sc => { s with scopes := sc }
          | none => s)

/-- `Convertor::visit_return_statement`. -/
def visit_return_statement : Nat → Token → Option Expression → CM Unit
  | 0, _, _ => fuelCM
  | fuel + 1, _kw, value => do
      modifyC (fun s => { s with is_returned := true })
      match value with
      | some v => convert_expression fuel v
      | none => do
          let _ ← write (.Load .nil)
          pure ()
      let _ ← write .Return
      pure ()

/-- `Convertor::convert` on an already-built convertor state: run the
statements, append `Load Nil; Return` when no explicit return was
emitted, close the scope for `Normal` functions (discarding the
returned `Pop`s, as the source does there), and return `self.function`
— whose arity is the 0 it was constructed with, since no visitor
assigns `self.function.arity` — together with the final global lambda
counter. -/
def conv_convert : Nat → String → FuncType → ConvState → List Statement →
    Except CErr (Function × Nat)
  | 0, _, _, _, _ => .error .fuelC
  | fuel + 1, name, fty, st0, stmts =>
      match convert_statements fuel stmts st0 with
      | .errC e _ => .error e
      | .ok _ st1 =>
          let st2 :=
            if !st1.is_returned then
              { st1 with codes := st1.codes ++ [.Load .nil, .Return] }
            else st1
          let st3 :=
            if fty = FuncType.Normal then
              { st2 with scopes := st2.scopes.end_scope.1 }
            else st2
          .ok (Function.mk name st3.codes 0 fty, st3.lambda_id)

/-- `Convertor::new` + parameter definitions + `convert`: the whole
sub-compilation performed by `visit_function_statement` and
`visit_lambda_expression`. -/
def conv_function : Nat → String → FuncType → List Token → List Statement → Nat →
    Except CErr (Function × Nat)
  | 0, _, _, _, _, _ => .error .fuelC
  | fuel + 1, name, fty, params, body, lamId =>
      conv_convert fuel name fty (define_params params (conv_new name fty lamId)) body

end

end Convertor

/-- The whole compile entry of lox.rs `run`:
`Convertor::default().convert(&statements)` (the process-global lambda
counter starts wherever it is; `0` at process start). -/
def convert_program (fuel : Nat) (stmts : List Statement) : Except CErr Function :=
  (Convertor.conv_convert fuel "__main__" .Main (Convertor.conv_default 0) stmts).map (·.1)

/-! ## Virtual machine (src/rlox/bytecode_interpreter/vm.rs)

The value stack is a `List Literal` with index 0 the bottom and pushes
at the end, mirroring the `Vec`; likewise the frame stack.  The
`globals` HashMap is an association list (`insert` overwrites).
Runtime errors are carried as their message (`create_runtime_error`'s
position/lexeme decoration and the `is_repl` print prefix are
diagnostics, not modelled); `panicV` stands for a Rust panic —
`pop().unwrap()` / index out of bounds — and for the undefined
behaviour of `unsafe set_len` growing the vector. -/

structure CallFrame where
  function : Function
  ip : Nat
  slot : Nat

structure VMState where
  stack : List Literal
  globals : List (String × Literal)
  frames : List CallFrame

inductive VmAbort where
  | msg : String → VmAbort
  | panicV : VmAbort
deriving DecidableEq, Repr

def globals_contains (g : List (String × Literal)) (k : String) : Bool :=
  g.any (·.1 == k)

def globals_get (g : List (String × Literal)) (k : String) : Option Literal :=
  (g.find? (·.1 == k)).map (·.2)

def globals_insert (g : List (String × Literal)) (k : String) (v : Literal) :
    List (String × Literal) :=
  if globals_contains g k then g.map (fun p => if p.1 == k then (k, v) else p)
  else g ++ [(k, v)]

namespace VirtualMachine

/-- `VirtualMachine::stack_nth`: `stack[len - i - 1]`; `none` is the
`unwrap` panic (on a short stack `len - i - 1` underflows and the `get`
misses). -/
def stack_nth (s : List Literal) (i : Nat) : Option Literal :=
  if s.length < i + 1 then none else s.get? (s.length - i - 1)

/-- `*self.stack_top_mut() = v`. -/
def set_last (s : List Literal) (v : Literal) : List Literal :=
  s.dropLast ++ [v]

/-- `VirtualMachine::binary_add`.  As in the source, the right operand
is popped *first*, so the `stack_nth(1)` type test inspects the element
*below* the left operand; the later `get_num`/`get_string` `unwrap`s on
the left operand can then panic. -/
def binary_add (s : List Literal) : Except VmAbort (List Literal) :=
  match s.getLast? with
  | none => .error .panicV
  | some right =>
      let s1 := s.dropLast
      match stack_nth s1 1 with
      | none => .error .panicV
      | some below =>
          if below.is_num && right.is_num then
            match s1.getLast? with
            | some (.number left) =>
                match right with
                | .number r => .ok (set_last s1 (.number (left + r)))
                | _ => .error .panicV
            | _ => .error .panicV
          else if below.is_string then
            match s1.getLast? with
            | some (.string left) => .ok (set_last s1 (.string (left ++ right.display)))
            | _ => .error .panicV
          else .error (.msg "Operands must be two numbers or two strings.")

/-- `VirtualMachine::binary_sub`. -/
def binary_sub (s : List Literal) : Except VmAbort (List Literal) :=
  match stack_nth s 1, stack_nth s 0 with
  | some a, some b =>
      if a.is_num && b.is_num then
        .ok (set_last s.dropLast (.number (a.get_num - b.get_num)))
      else .error (.msg "Operands must be two numbers")
  | _, _ => .error .panicV

/-- `VirtualMachine::binary_multi`. -/
def binary_multi (s : List Literal) : Except VmAbort (List Literal) :=
  match stack_nth s 1, stack_nth s 0 with
  | some a, some b =>
      if a.is_num && b.is_num then
        .ok (set_last s.dropLast (.number (a.get_num * b.get_num)))
      else .error (.msg "Operands must be two numbers")
  | _, _ => .error .panicV

/-- `VirtualMachine::binary_div`: pops the right operand, then errors
iff it is zero, else replaces the left operand by the quotient. -/
def binary_div (s : List Literal) : Except VmAbort (List Literal) :=
  match stack_nth s 1, stack_nth s 0 with
  | some a, some b =>
      if a.is_num && b.is_num then
        if b.get_num = 0 then .error (.msg "divisor cannot be 0.")
        else .ok (set_last s.dropLast (.number (a.get_num / b.get_num)))
      else .error (.msg "Operands must be two numbers")
  | _, _ => .error .panicV

/-- `VirtualMachine::binary_mod`: truncates both operands with `as i64`,
errors iff the truncated right operand is zero, else stores the `i64`
remainder converted back to a double. -/
def binary_mod (s : List Literal) : Except VmAbort (List Literal) :=
  match stack_nth s 1, stack_nth s 0 with
  | some a, some b =>
      if a.is_num && b.is_num then
        let r := f64_as_i64 b.get_num
        let l := f64_as_i64 a.get_num
        if r = 0 then .error (.msg "divisor cannot be 0.")
        else .ok (set_last s.dropLast (.number ((i64_rem l r : ℤ) : ℚ)))
      else .error (.msg "Operands must be two numbers")
  | _, _ => .error .panicV

/-- `VirtualMachine::binary_eq` (never errors; panics only on an
under-filled stack). -/
def binary_eq (s : List Literal) : Except VmAbort (List Literal) :=
  match s.getLast? with
  | none => .error .panicV
  | some right =>
      let s1 := s.dropLast
      match s1.getLast? with
      | none => .error .panicV
      | some left => .ok (set_last s1 (.bool (left.beq right)))

/-- `VirtualMachine::binary_less`. -/
def binary_less (s : List Literal) : Except VmAbort (List Literal) :=
  match stack_nth s 1, stack_nth s 0 with
  | some a, some b =>
      if a.is_num && b.is_num then
        .ok (set_last s.dropLast (.bool (decide (a.get_num < b.get_num))))
      else .error (.msg "Operands must be two numbers")
  | _, _ => .error .panicV

/-- `VirtualMachine::binary_greater`. -/
def binary_greater (s : List Literal) : Except VmAbort (List Literal) :=
  match stack_nth s 1, stack_nth s 0 with
  | some a, some b =>
      if a.is_num && b.is_num then
        .ok (set_last s.dropLast (.bool (decide (b.get_num < a.get_num))))
      else .error (.msg "Operands must be two numbers")
  | _, _ => .error .panicV

inductive StepRes where
  | next : CallFrame → VMState → StepRes
  | halt : VMState → StepRes
  | fail : String → StepRes
  | panicR : StepRes

/-- Map a binary helper's result onto the step. -/
def binary_step (fr : CallFrame) (st : VMState)
    (r : Except VmAbort (List Literal)) : StepRes :=
  match r with
  | .ok s' => .next fr { st with stack := s' }
  | .error (.msg m) => .fail m
  | .error .panicV => .panicR

/-- Common shape of the `OpIGlobal` opcodes: a defined-global check, a
number-type check on the target and the (peeked) stack top, then the
arithmetic stored back into the global.  `op` is the lexeme of the
error message. -/
def i_global (fr : CallFrame) (st : VMState) (name : String) (op : String)
    (f : Literal → Literal → Except String Literal) : StepRes :=
  if globals_contains st.globals name then
    match globals_get st.globals name with
    | none => .panicR
    | some target =>
        match st.stack.getLast? with
        | none => .panicR
        | some top =>
            if target.is_num && top.is_num then
              match f target top with
              | .ok v =>
                  .next fr { st with globals := globals_insert st.globals name v }
              | .error m => .fail m
            else .fail ("Operator '" ++ op ++ "' can only be used on number")
  else .fail ("Undefined variable `" ++ name ++ "`.")

/-- Common shape of the `OpILocal` opcodes: the target is
`stack[slot + base]`, the result is stored back into that slot, the
stack depth is unchanged.  `ModILocal` is passed the division the
source performs there (`target / divisor`, with the zero test on the
untruncated divisor) — see `vm.rs` lines 511–534. -/
def i_local (fr : CallFrame) (st : VMState) (slot : Nat) (op : String)
    (f : Literal → Literal → Except String Literal) : StepRes :=
  match st.stack.get? (slot + fr.slot) with
  | none => .panicR
  | some target =>
      match st.stack.getLast? with
      | none => .panicR
      | some top =>
          if target.is_num && top.is_num then
            match f target top with
            | .ok v => .next fr { st with stack := st.stack.set (slot + fr.slot) v }
            | .error m => .fail m
          else .fail ("Operator '" ++ op ++ "' can only be used on number")

/-- One dispatch step of `VirtualMachine::run`'s `match opcode`.  `fr`
arrives with `ip` already incremented past the opcode (as after
`read_opcode`); `fr.slot` is the `base` of the source. -/
def exec_op (fr : CallFrame) (st : VMState) (op : OpCode) : StepRes :=
  match op with
  | .Load v => .next fr { st with stack := st.stack ++ [v] }
  | .Negate =>
      match st.stack.getLast? with
      | none => .panicR
      | some t =>
          if t.is_num then
            .next fr { st with stack := set_last st.stack (.number (-t.get_num)) }
          else .fail "Operator `-`'s Operand must be number!"
  | .Add => binary_step fr st (binary_add st.stack)
  | .Sub => binary_step fr st (binary_sub st.stack)
  | .Mul => binary_step fr st (binary_multi st.stack)
  | .Div => binary_step fr st (binary_div st.stack)
  | .Mod => binary_step fr st (binary_mod st.stack)
  | .Return =>
      match st.stack.getLast? with
      | none => .panicR
      | some value =>
          let s1 := st.stack.dropLast
          if st.frames.isEmpty then
            match s1.getLast? with
            | none => .panicR
            | some _ => .halt { st with stack := s1.dropLast }
          else
            if s1.length < fr.slot then .panicR
            else
              match st.frames.getLast? with
              | none => .panicR
              | some fr' =>
                  .next fr' { st with stack := s1.take fr.slot ++ [value],
                                      frames := st.frames.dropLast }
  | .Not =>
      match st.stack.getLast? with
      | none => .panicR
      | some t => .next fr { st with stack := set_last st.stack (.bool (!t.is_true)) }
  | .Eq => binary_step fr st (binary_eq st.stack)
  | .Less => binary_step fr st (binary_less st.stack)
  | .Greater => binary_step fr st (binary_greater st.stack)
  | .Print =>
      match st.stack.getLast? with
      | none => .panicR
      | some _ => .next fr { st with stack := st.stack.dropLast }
  | .Pop => .next fr { st with stack := st.stack.dropLast }
  | .DefineGlobal name =>
      match st.stack.getLast? with
      | none => .panicR
      | some v =>
          .next fr { st with stack := st.stack.dropLast,
                             globals := globals_insert st.globals name v }
  | .GetGlobal name =>
      match globals_get st.globals name with
      | some v => .next fr { st with stack := st.stack ++ [v] }
      | none => .fail ("Undefined variable `" ++ name ++ "`.")
  | .SetGlobal name =>
      if globals_contains st.globals name then
        match st.stack.getLast? with
        | none => .panicR
        | some v => .next fr { st with globals := globals_insert st.globals name v }
      else .fail ("Undefined variable `" ++ name ++ "`.")
  | .GetLocal slot =>
      match st.stack.get? (slot + fr.slot) with
      | none => .panicR
      | some v => .next fr { st with stack := st.stack ++ [v] }
  | .SetLocal slot =>
      match st.stack.getLast? with
      | none => .panicR
      | some v =>
          if slot + fr.slot < st.stack.length then
            .next fr { st with stack := st.stack.set (slot + fr.slot) v }
          else .panicR
  | .JumpIfFalse offset =>
      match st.stack.getLast? with
      | none => .panicR
      | some t =>
          if !t.is_true then .next { fr with ip := fr.ip + offset } st
          else .next fr st
  | .JumpIfTrue offset =>
      match st.stack.getLast? with
      | none => .panicR
      | some t =>
          if t.is_true then .next { fr with ip := fr.ip + offset } st
          else .next fr st
  | .Jump offset => .next { fr with ip := fr.ip + offset } st
  | .JumpForward offset =>
      if fr.ip < offset then .panicR
      else .next { fr with ip := fr.ip - offset } st
  | .Call arity =>
      match stack_nth st.stack arity with
      | none => .panicR
      | some callee =>
          match callee with
          | .function f =>
              if f.arity != arity then
                .fail ("Expect " ++ toString f.arity ++ " arguments but got " ++
                       toString arity ++ ".")
              else
                .next ⟨f, 0, st.stack.length - arity - 1⟩
                  { st with frames := st.frames ++ [fr] }
          | _ => .fail "Expect a callable type(Function, Lambda, Class)!"
  | .AddIGlobal name => i_global fr st name "+="
      (fun t v => .ok (.number (t.get_num + v.get_num)))
  | .SubIGlobal name => i_global fr st name "-="
      (fun t v => .ok (.number (t.get_num - v.get_num)))
  | .MulIGlobal name => i_global fr st name "*="
      (fun t v => .ok (.number (t.get_num * v.get_num)))
  | .DivIGlobal name => i_global fr st name "/="
      (fun t v =>
        if v.get_num = 0 then .error "divisor cannot be 0."
        else .ok (.number (t.get_num / v.get_num)))
  | .ModIGlobal name => i_global fr st name "%="
      (fun t v =>
        if f64_as_i64 v.get_num = 0 then .error "divisor cannot be 0."
        else .ok (.number ((i64_rem (f64_as_i64 t.get_num) (f64_as_i64 v.get_num) : ℤ) : ℚ)))
  | .AddILocal slot => i_local fr st slot "+="
      (fun t v => .ok (.number (t.get_num + v.get_num)))
  | .SubILocal slot => i_local fr st slot "-="
      (fun t v => .ok (.number (t.get_num - v.get_num)))
  | .MulILocal slot => i_local fr st slot "*="
      (fun t v => .ok (.number (t.get_num * v.get_num)))
  | .DivILocal slot => i_local fr st slot "/="
      (fun t v =>
        if v.get_num = 0 then .error "divisor cannot be 0."
        else .ok (.number (t.get_num / v.get_num)))
  | .ModILocal slot => i_local fr st slot "%="
      (fun t v =>
        if v.get_num = 0 then .error "divisor cannot be 0."
        else .ok (.number (t.get_num / v.get_num)))

inductive RunRes where
  | ok : VMState → RunRes
  | err : String → RunRes
  | panicR : RunRes
  | noFuel : RunRes

/-- The `while let Some(opcode) = frame.read_opcode()` loop of
`VirtualMachine::run`: running off the end of the current chunk exits
the whole loop with `Ok`. -/
def run_loop : Nat → CallFrame → VMState → RunRes
  | 0, _, _ => .noFuel
  | fuel + 1, fr, st =>
      match fr.function.codes.get? fr.ip with
      | none => .ok st
      | some op =>
          match exec_op { fr with ip := fr.ip + 1 } st op with
          | .next fr' st' => run_loop fuel fr' st'
          | .halt st' => .ok st'
          | .fail e => .err e
          | .panicR => .panicR

/-- `VirtualMachine::run`: pop the current frame off the frame stack
(`unwrap`) and loop. -/
def run (fuel : Nat) (st : VMState) : RunRes :=
  match st.frames.getLast? with
  | none => .panicR
  | some fr => run_loop fuel fr { st with frames := st.frames.dropLast }

/-- `VirtualMachine::interpret`: push the function as the sentinel
value, create a frame with `slot` = the stack length after the push,
and run (on error the source clears the stack and returns the error;
the error carries no state here). -/
def interpret (fuel : Nat) (st : VMState) (f : Function) : RunRes :=
  let stack1 := st.stack ++ [.function f]
  let frame : CallFrame := ⟨f, 0, stack1.length⟩
  run fuel { st with stack := stack1, frames := st.frames ++ [frame] }

/-- `VirtualMachine::new` (the `is_repl` flag only selects a print
prefix and is not modelled). -/
def new : VMState := ⟨[], [], []⟩

end VirtualMachine

end RLox

namespace RLox

/-! ## Concrete claim inputs

Token and AST values used by the concrete evaluations below.  Token
positions are irrelevant to every property checked and are fixed at
`(1, 0)`. -/

def ident_token (s : String) : Token := Token.new .Identifier s (1, 0)

def kw_token (tt : TokenType) (lx : String) : Token := Token.new tt lx (1, 0)

def semi_token : Token := Token.new .Semicolon ";" (1, 0)

def eof_token : Token := Token.new .Eof "" (1, 0)

/-- A source with a `//` comment followed by a newline and more code. -/
def c1_source : List Char := ['/', '/', 'c', '\n', 'x', ';']

/-- Scanning `c1_source` panics (the comment loop's `||` condition can
only stop the loop when a newline is read at the very end of input,
which `nth` never reports, so `advance` runs past the end). -/
def c1_panic_check : Bool :=
  match scan_source 100 c1_source with
  | .panicS => true
  | _ => false

/-- What the claim expects after the comment: the tokens of `x;`. -/
def c1_resume_check : Bool :=
  match scan_source 100 ['x', ';'] with
  | .ok ts _ =>
      ts.map Token.token_type == [.Identifier, .Semicolon, .Eof] &&
      ts.map Token.lexeme == ["x", ";", ""]
  | _ => false

/-- `while (true) { break; }`. -/
def c3_while_break : List Statement :=
  [.whileS (.literal (.bool true) (kw_token .True "true"))
     (.block [.breakS (kw_token .Break "break")]) none]

def c3_panic_check : Bool :=
  match convert_program 99 c3_while_break with
  | .error .panicC => true
  | _ => false

/-- `while (true) { if (a) continue; if (b) continue; if (c) break; }`
— enough pending continues for `handle_break_jump` not to panic. -/
def c3_two_continues_break : List Statement :=
  [.whileS (.literal (.bool true) (kw_token .True "true"))
     (.block
       [.branch (.varE (ident_token "a")) (.continueS (kw_token .Continue "continue")) none,
        .branch (.varE (ident_token "b")) (.continueS (kw_token .Continue "continue")) none,
        .branch (.varE (ident_token "c")) (.breakS (kw_token .Break "break")) none]) none]

/-- In the compiled chunk of `c3_two_continues_break` the break's jump
(index 16) keeps its `Jump 0` placeholder, while the *first continue*'s
jump (index 6) was patched — by `handle_break_jump`, with the break's
target `19 - 6 = 13`, taken from the continue list. -/
def c3_unpatched_break_check : Bool :=
  match convert_program 99 c3_two_continues_break with
  | .ok f =>
      f.codes.length == 22 &&
      (match f.codes.get? 16 with | some (.Jump 0) => true | _ => false) &&
      (match f.codes.get? 6 with | some (.Jump 13) => true | _ => false) &&
      (match f.codes.get? 11 with | some (.Jump 6) => true | _ => false)
  | _ => false

/-- Tokens of `a and b ? c : d ;`. -/
def c4_tokens : List Token :=
  [ident_token "a", kw_token .And "and", ident_token "b",
   kw_token .QuestionMark "?", ident_token "c", kw_token .Colon ":",
   ident_token "d", semi_token, eof_token]

/-- The expression the parser actually produces for `a and b ? c : d`:
the ternary is nested *inside* the right operand of `and`. -/
def c4_actual : Expression :=
  .logical (.varE (ident_token "a")) (kw_token .And "and")
    (.ternary (.varE (ident_token "b")) (.varE (ident_token "c"))
      (.varE (ident_token "d")))

/-- The tree the claim asserts: the whole conjunction as the ternary's
condition. -/
def c4_claimed : Expression :=
  .ternary (.logical (.varE (ident_token "a")) (kw_token .And "and")
      (.varE (ident_token "b")))
    (.varE (ident_token "c")) (.varE (ident_token "d"))

def c4_result : Option Expression :=
  match parse_expression 30 c4_tokens with
  | .ok e _ => some e
  | _ => none

/-- Parameter-list tokens `p, p, …, p) {}` with the given number of
parameters (the parser never compares parameter names). -/
def c7_param_tokens (n : Nat) : List Token :=
  (List.replicate (n - 1) [ident_token "p", kw_token .Comma ","]).flatten ++
    [ident_token "p", kw_token .RightParen ")", kw_token .LeftBrace "\x7b",
     kw_token .RightBrace "\x7d", eof_token]

def c7_params_257_check : Bool :=
  match Parser.function_params_and_body 600 ⟨c7_param_tokens 257, none⟩ with
  | .ok (ps, body) _ => ps.length == 257 && body.isEmpty
  | _ => false

def c7_params_258_check : Bool :=
  match Parser.function_params_and_body 600 ⟨c7_param_tokens 258, none⟩ with
  | .errP (.parseE _ _ _ m) _ => m == "The maximum number of parameters is 256."
  | _ => false

/-- Call tokens `f(p, p, …, p)` with 257 arguments. -/
def c7_call_tokens : List Token :=
  ident_token "f" :: kw_token .LeftParen "(" ::
    ((List.replicate 256 [ident_token "p", kw_token .Comma ","]).flatten ++
     [ident_token "p", kw_token .RightParen ")", semi_token, eof_token])

def c7_args_257_check : Bool :=
  match parse_expression 600 c7_call_tokens with
  | .ok (.call _ _ args) _ => args.length == 257
  | _ => false

/-- A frame whose `slot` (base) is 0; the function is irrelevant to a
single `exec_op` step. -/
def c8_frame : CallFrame := ⟨.mk "d" [] 0 .Main, 1, 0⟩

/-- Executing `ModILocal 0` with local `7` and stack top `2` stores the
*quotient* `7/2` into the slot (and leaves the depth unchanged). -/
def c8_step_check : Bool :=
  match VirtualMachine.exec_op c8_frame ⟨[.number 7, .number 2], [], []⟩ (.ModILocal 0) with
  | .next _ st =>
      (match st.stack with
       | [.number x, .number y] => x == 7 / 2 && y == 2
       | _ => false) && st.stack.length == 2
  | _ => false

/-- `func f(n) { if (n) return 1; } print f(false);` — the call takes
the untaken branch, `f`'s chunk ends without executing `Return`, and
`run` exits with `Ok` leaving the pending stack entries. -/
def c9_program : List Statement :=
  [.funcS (ident_token "f") [ident_token "n"]
     [.branch (.varE (ident_token "n"))
        (.returnS (kw_token .Return "return")
          (some (.literal (.number 1) (kw_token .Number "1"))))
        none] .Normal,
   .printStmt (.call (.varE (ident_token "f")) (kw_token .RightParen ")")
      [.literal (.bool false) (kw_token .False "false")]) (kw_token .Print "print")]

def c9_counterexample_check : Bool :=
  match convert_program 99 c9_program with
  | .ok f =>
      match VirtualMachine.interpret 99 VirtualMachine.new f with
      | .ok st => !st.stack.isEmpty && st.stack.length == 3 && !st.frames.isEmpty
      | _ => false
  | _ => false

/-- A one-opcode function for instantiating the top-level-`Return`
theorem. -/
def c9_ret_fn : Function := .mk "r" [.Return] 0 .Main

/-- An entry convertor state and the state after converting a
one-parameter lambda in it. -/
def c10_state : ConvState := Convertor.conv_default 0

def c10_state' : ConvState :=
  match Convertor.visit_lambda_expression 9 [ident_token "x"] [] c10_state with
  | .ok _ s => s
  | .errC _ s => s

/-- An arity-0 function standing for a compiled lambda. -/
def c10_lam_fn : Function := .mk "$-1" [.Load .nil, .Return] 0 .Lambda

/-! ## Helper lemmas -/

namespace VirtualMachine

lemma stack_nth_concat2_one (s : List Literal) (x y : Literal) :
    stack_nth (s ++ [x, y]) 1 = some x := by
  unfold stack_nth
  have hlen : (s ++ [x, y]).length = s.length + 2 := by simp
  rw [hlen]
  have h2 : ¬ (s.length + 2 < 1 + 1) := by omega
  rw [if_neg h2]
  have h3 : s.length + 2 - 1 - 1 = s.length := by omega
  rw [h3, List.get?_eq_getElem?, List.getElem?_append_right (by omega)]
  simp

lemma stack_nth_concat2_zero (s : List Literal) (x y : Literal) :
    stack_nth (s ++ [x, y]) 0 = some y := by
  unfold stack_nth
  have hlen : (s ++ [x, y]).length = s.length + 2 := by simp
  rw [hlen]
  have h2 : ¬ (s.length + 2 < 0 + 1) := by omega
  rw [if_neg h2]
  have h3 : s.length + 2 - 0 - 1 = s.length + 1 := by omega
  rw [h3, List.get?_eq_getElem?, List.getElem?_append_right (by omega)]
  simp

lemma dropLast_concat2 (s : List Literal) (x y : Literal) :
    (s ++ [x, y]).dropLast = s ++ [x] := by
  have h : s ++ [x, y] = (s ++ [x]) ++ [y] := by simp
  rw [h, List.dropLast_concat]

lemma set_last_concat (s : List Literal) (x v : Literal) :
    set_last (s ++ [x]) v = s ++ [v] := by
  unfold set_last
  rw [List.dropLast_concat]

lemma binary_div_spec (s : List Literal) (a b : ℚ) :
    binary_div (s ++ [.number a, .number b]) =
      if b = 0 then .error (.msg "divisor cannot be 0.")
      else .ok (s ++ [.number (a / b)]) := by
  unfold binary_div
  rw [stack_nth_concat2_one, stack_nth_concat2_zero]
  simp only [Literal.is_num, Literal.get_num, Bool.and_self, if_true]
  rw [dropLast_concat2, set_last_concat]

lemma binary_mod_spec (s : List Literal) (a b : ℚ) :
    binary_mod (s ++ [.number a, .number b]) =
      if f64_as_i64 b = 0 then .error (.msg "divisor cannot be 0.")
      else .ok (s ++ [.number ((i64_rem (f64_as_i64 a) (f64_as_i64 b) : ℤ) : ℚ)]) := by
  unfold binary_mod
  rw [stack_nth_concat2_one, stack_nth_concat2_zero]
  simp only [Literal.is_num, Literal.get_num, Bool.and_self, if_true]
  rw [dropLast_concat2, set_last_concat]

lemma is_true_spec (v : Literal) : v.is_true = false ↔ (v = .nil ∨ v = .bool false) := by
  cases v with
  | bool b => cases b <;> simp [Literal.is_true]
  | _ => simp [Literal.is_true]

lemma exec_not_spec (fr : CallFrame) (g : List (String × Literal)) (frs : List CallFrame)
    (s : List Literal) (v : Literal) :
    exec_op fr ⟨s ++ [v], g, frs⟩ .Not = .next fr ⟨s ++ [.bool (!v.is_true)], g, frs⟩ := by
  unfold exec_op
  simp only [List.getLast?_concat]
  rw [show set_last (s ++ [v]) (.bool (!v.is_true)) = s ++ [.bool (!v.is_true)] from
    set_last_concat s v _]

lemma exec_jif_spec (fr : CallFrame) (g : List (String × Literal)) (frs : List CallFrame)
    (s : List Literal) (v : Literal) (off : Nat) :
    exec_op fr ⟨s ++ [v], g, frs⟩ (.JumpIfFalse off) =
      .next (if v.is_true then fr else { fr with ip := fr.ip + off }) ⟨s ++ [v], g, frs⟩ := by
  unfold exec_op
  simp only [List.getLast?_concat]
  cases h : v.is_true <;> simp [h]

lemma exec_jit_spec (fr : CallFrame) (g : List (String × Literal)) (frs : List CallFrame)
    (s : List Literal) (v : Literal) (off : Nat) :
    exec_op fr ⟨s ++ [v], g, frs⟩ (.JumpIfTrue off) =
      .next (if v.is_true then { fr with ip := fr.ip + off } else fr) ⟨s ++ [v], g, frs⟩ := by
  unfold exec_op
  simp only [List.getLast?_concat]
  cases h : v.is_true <;> simp [h]

lemma stack_nth_call (s args : List Literal) (f : Function) (n : Nat)
    (h : args.length = n) :
    stack_nth (s ++ .function f :: args) n = some (.function f) := by
  unfold stack_nth
  have hlen : (s ++ .function f :: args).length = s.length + 1 + n := by
    simp [h]
    omega
  rw [hlen]
  have h2 : ¬ (s.length + 1 + n < n + 1) := by omega
  rw [if_neg h2]
  have h3 : s.length + 1 + n - n - 1 = s.length := by omega
  rw [h3, List.get?_eq_getElem?, List.getElem?_append_right (by omega)]
  simp

lemma exec_call_arity_fail (fr : CallFrame) (g : List (String × Literal))
    (frs : List CallFrame) (s args : List Literal) (f : Function) (n : Nat)
    (hargs : args.length = n) (harity : f.arity = 0) (hn : 1 ≤ n) :
    exec_op fr ⟨s ++ .function f :: args, g, frs⟩ (.Call n) =
      .fail ("Expect 0 arguments but got " ++ toString n ++ ".") := by
  simp only [exec_op]
  rw [stack_nth_call s args f n hargs]
  simp only [harity]
  have h0 : (0 != n) = true := by
    simp
    omega
  rw [if_pos h0]
  rfl

end VirtualMachine

namespace Convertor

lemma conv_convert_arity (fuel : Nat) (name : String) (fty : FuncType)
    (st0 : ConvState) (stmts : List Statement) (f : Function) (n : Nat)
    (h : conv_convert fuel name fty st0 stmts = .ok (f, n)) : f.arity = 0 := by
  cases fuel with
  | zero => simp [conv_convert] at h
  | succ fuel =>
      unfold conv_convert at h
      cases hc : convert_statements fuel stmts st0 with
      | ok u st1 =>
          rw [hc] at h
          simp at h
          obtain ⟨hf, _⟩ := h
          subst hf
          rfl
      | errC e st1 =>
          rw [hc] at h
          simp at h

lemma conv_function_arity (fuel : Nat) (name : String) (fty : FuncType)
    (params : List Token) (body : List Statement) (lamId : Nat) (f : Function) (n : Nat)
    (h : conv_function fuel name fty params body lamId = .ok (f, n)) : f.arity = 0 := by
  cases fuel with
  | zero => simp [conv_function] at h
  | succ fuel => exact conv_convert_arity fuel name fty _ body f n h

lemma visit_lambda_emits_arity0 (fuel : Nat) (params : List Token) (body : List Statement)
    (st st' : ConvState) (u : Unit)
    (h : visit_lambda_expression fuel params body st = .ok u st') :
    ∃ f : Function, f.arity = 0 ∧ st'.codes = st.codes ++ [.Load (.function f)] := by
  cases fuel with
  | zero => simp [visit_lambda_expression, fuelCM] at h
  | succ fuel =>
      unfold visit_lambda_expression at h
      simp only [Bind.bind, getC, modifyC, pure] at h
      cases hc : conv_function fuel ("$-" ++ toString (st.lambda_id + 1)) .Lambda params body
          (st.lambda_id + 1) with
      | ok p =>
          obtain ⟨f, lamId'⟩ := p
          rw [hc] at h
          simp only [liftSub, write, pure] at h
          refine ⟨f, conv_function_arity fuel _ _ params body _ f lamId' hc, ?_⟩
          cases h
          rfl
      | error e =>
          rw [hc] at h
          simp [liftSub] at h

end Convertor

/-! ## Claim theorems -/

/-- C1 (code bug): the claim says a `//` comment is skipped exactly up
to (not past) the next newline and scanning resumes after it.  On the
source `//c\nx;` the scanner instead panics: the comment loop
`while nth(0) != '\n' || !is_at_end` (an `||` where the comment
semantics needs `&&`) never stops at the newline — it can only stop
when `nth(0)` is a newline *and* the scanner is at the end, which
`nth`'s `'\0'` end-padding makes impossible — so `advance` indexes past
the end of the source.  The second conjunct records the tokens the
claim expects for the text after the newline. -/
theorem c1_line_comment_scanner_panics :
    c1_panic_check = true ∧ c1_resume_check = true := by
  constructor
  · decide!
  · decide!

/-- C2 (code bug): the claim says `a % b;` parses as a binary `%`
expression.  `Parser::factor` matches only `Star` and `Slash`, so the
`Mod` token is never consumed as an operator: the statement parse stops
after `a`, fails to find `;`, and reports
`Expect ';' after value` at the `%` token — for every pair of
identifier lexemes. -/
theorem c2_mod_operator_not_parsed (a b : String) :
    parse_tokens 30
        [ident_token a, kw_token .Mod "%", ident_token b, semi_token, eof_token] =
      .ok (.error [.parseE (1, 0) "%" .Mod "Expect ';' after value"])
        ⟨[eof_token], some semi_token⟩ := by
  rfl

/-- C3 (code bug): the claim says every break placeholder is patched
from the break list when the loop ends.  In the code,
`handle_break_jump` pops its patch index from the *continue* list:
compiling `while (true) { break; }` panics (`unwrap` on the empty
continue list), and in a loop with two continues and a break the
break's `Jump` keeps its placeholder 0 while the first continue's jump
is patched to the break's target. -/
theorem c3_break_patching_broken :
    c3_panic_check = true ∧ c3_unpatched_break_check = true := by
  constructor
  · decide!
  · decide!

/-- C4 counterexample: parsing `a and b ? c : d` yields the conjunction
as the *right operand's* ternary, `a and (b ? c : d)` — not the tree
the claim asserts, `(a and b) ? c : d`. -/
theorem c4_ternary_precedence_counterexample :
    c4_result = some c4_actual ∧ c4_actual ≠ c4_claimed := by
  constructor
  · rfl
  · intro h
    exact Expression.noConfusion h

/-- C4 (amended): the ternary `?:` is right-associative but binds
*tighter* than `and`/`or`: for all identifier lexemes,
`a and b ? c : d` parses as `a and (b ? c : d)` (only `b` is the
ternary's condition), and `a ? b : c ? d : e` parses as
`a ? b : (c ? d : e)`. -/
theorem c4_ternary_precedence_amended (a b c d e : String) :
    (parse_expression 30
        [ident_token a, kw_token .And "and", ident_token b,
         kw_token .QuestionMark "?", ident_token c, kw_token .Colon ":",
         ident_token d, semi_token, eof_token] =
      .ok (.logical (.varE (ident_token a)) (kw_token .And "and")
          (.ternary (.varE (ident_token b)) (.varE (ident_token c))
            (.varE (ident_token d))))
        ⟨[semi_token, eof_token], some (ident_token d)⟩)
    ∧ (parse_expression 30
        [ident_token a, kw_token .QuestionMark "?", ident_token b,
         kw_token .Colon ":", ident_token c, kw_token .QuestionMark "?",
         ident_token d, kw_token .Colon ":", ident_token e, semi_token, eof_token] =
      .ok (.ternary (.varE (ident_token a)) (.varE (ident_token b))
          (.ternary (.varE (ident_token c)) (.varE (ident_token d))
            (.varE (ident_token e))))
        ⟨[semi_token, eof_token], some (ident_token e)⟩) := by
  constructor
  · rfl
  · rfl

/-- C5: `Literal::is_true` classifies exactly `Nil` and `Bool(false)`
as falsy (numbers — including 0 —, strings — including the empty one —
and functions are all truthy), and the `Not`, `JumpIfFalse` and
`JumpIfTrue` opcodes consult exactly this test on the stack top
(`JumpIf*` peek without popping). -/
theorem c5_truthiness :
    (∀ v : Literal, v.is_true = false ↔ (v = .nil ∨ v = .bool false))
    ∧ (∀ q : ℚ, (Literal.number q).is_true = true)
    ∧ ((Literal.string "").is_true = true)
    ∧ (∀ f : Function, (Literal.function f).is_true = true)
    ∧ (∀ (fr : CallFrame) (g : List (String × Literal)) (frs : List CallFrame)
         (s : List Literal) (v : Literal),
        VirtualMachine.exec_op fr ⟨s ++ [v], g, frs⟩ .Not =
          .next fr ⟨s ++ [.bool (!v.is_true)], g, frs⟩)
    ∧ (∀ (fr : CallFrame) (g : List (String × Literal)) (frs : List CallFrame)
         (s : List Literal) (v : Literal) (off : Nat),
        VirtualMachine.exec_op fr ⟨s ++ [v], g, frs⟩ (.JumpIfFalse off) =
          .next (if v.is_true then fr else { fr with ip := fr.ip + off })
            ⟨s ++ [v], g, frs⟩)
    ∧ (∀ (fr : CallFrame) (g : List (String × Literal)) (frs : List CallFrame)
         (s : List Literal) (v : Literal) (off : Nat),
        VirtualMachine.exec_op fr ⟨s ++ [v], g, frs⟩ (.JumpIfTrue off) =
          .next (if v.is_true then { fr with ip := fr.ip + off } else fr)
            ⟨s ++ [v], g, frs⟩) :=
  ⟨VirtualMachine.is_true_spec,
   fun _ => rfl, rfl, fun _ => rfl,
   VirtualMachine.exec_not_spec,
   VirtualMachine.exec_jif_spec,
   VirtualMachine.exec_jit_spec⟩

/-- C6: on two `Number` operands, `Div` errors with
`divisor cannot be 0.` iff the right operand is 0 and otherwise
replaces the operands by their quotient; `Mod` truncates both operands
(`as i64`), errors with the same message iff the truncated right
operand is 0, and otherwise stores the `i64` remainder as a double; in
the non-error case the stack is one entry shorter.  The `Div`/`Mod`
opcodes dispatch to exactly these helpers. -/
theorem c6_div_mod_semantics :
    ∀ (s : List Literal) (a b : ℚ),
      (VirtualMachine.binary_div (s ++ [.number a, .number b]) =
        if b = 0 then .error (.msg "divisor cannot be 0.")
        else .ok (s ++ [.number (a / b)]))
      ∧ (VirtualMachine.binary_mod (s ++ [.number a, .number b]) =
        if f64_as_i64 b = 0 then .error (.msg "divisor cannot be 0.")
        else .ok (s ++ [.number ((i64_rem (f64_as_i64 a) (f64_as_i64 b) : ℤ) : ℚ)]))
      ∧ (∀ (fr : CallFrame) (st : VMState),
          VirtualMachine.exec_op fr st .Div =
            VirtualMachine.binary_step fr st (VirtualMachine.binary_div st.stack))
      ∧ (∀ (fr : CallFrame) (st : VMState),
          VirtualMachine.exec_op fr st .Mod =
            VirtualMachine.binary_step fr st (VirtualMachine.binary_mod st.stack))
      ∧ (s ++ [Literal.number (a / b)]).length + 1 =
          (s ++ [Literal.number a, Literal.number b]).length := by
  intro s a b
  refine ⟨VirtualMachine.binary_div_spec s a b, VirtualMachine.binary_mod_spec s a b,
    fun _ _ => rfl, fun _ _ => rfl, by simp⟩

/-- C7 (code bug): the claim (and the parser's own error message) says
parameter and argument lists of more than 256 entries are rejected.
The `len() > 256` test runs *before* each push, so a list of exactly
257 parameters — and a call with 257 arguments — is accepted; only
from 258 entries on is the error raised. -/
theorem c7_limit_off_by_one :
    c7_params_257_check = true ∧ c7_args_257_check = true ∧
      c7_params_258_check = true := by
  refine ⟨?_, ?_, ?_⟩
  · decide!
  · decide!
  · decide!

/-- C8 (code bug): the claim says `ModILocal` stores the remainder of
the integer-truncated operands (`trunc 7 % trunc 2 = 1` here).  The
code computes the floating division instead: with local `7` and stack
top `2` it stores `7/2 = 3.5`, which differs from the remainder `1`
(the stack depth is indeed unchanged). -/
theorem c8_mod_ilocal_divides :
    c8_step_check = true
    ∧ (7 / 2 : ℚ) ≠ ((i64_rem (f64_as_i64 7) (f64_as_i64 2) : ℤ) : ℚ)
    ∧ ((i64_rem (f64_as_i64 7) (f64_as_i64 2) : ℤ) : ℚ) = 1 := by
  refine ⟨by decide!, by decide!, by decide!⟩

/-- C9 counterexample: compiling and interpreting
`func f(n) { if (n) return 1; } print f(false);` returns `Ok` with
*three* entries left on the value stack (the sentinel, `f`, and the
argument `false`) and the suspended main frame still pending: `f`'s
chunk ends without executing `Return` (its only `return` sits in the
untaken branch and `is_returned` suppressed the epilogue), and running
off a chunk's end exits the whole run loop with `Ok`. -/
theorem c9_interpret_ok_nonempty_stack : c9_counterexample_check = true := by
  decide!

/-- C9 (amended): when the VM executes `Return` with no suspended
frames and exactly the sentinel below the return value, it pops both
and halts with an empty stack; but `interpret` can also return `Ok`
without executing the top-level `Return` — when a called function's
chunk ends without a `Return` opcode the run loop exits immediately
with `Ok`, leaving its pending stack entries behind (see the
counterexample), so successive successful REPL lines can accumulate
entries. -/
theorem c9_top_level_return_pops_two (fn : Function) (ip slot : Nat)
    (g : List (String × Literal)) (a b : Literal) (fuel : Nat)
    (h : fn.codes.get? ip = some .Return) :
    VirtualMachine.run_loop (fuel + 1) ⟨fn, ip, slot⟩ ⟨[a, b], g, []⟩ =
      .ok ⟨[], g, []⟩ := by
  unfold VirtualMachine.run_loop
  rw [h]
  simp [VirtualMachine.exec_op]

/-- C9 witness: the theorem applied to a one-opcode `Return` chunk with
the sentinel and a number on the stack. -/
theorem c9_top_level_return_pops_two_witness :
    VirtualMachine.run_loop 5 ⟨c9_ret_fn, 0, 1⟩
        ⟨[.function c9_ret_fn, .number 3], [], []⟩ = .ok ⟨[], [], []⟩ :=
  c9_top_level_return_pops_two c9_ret_fn 0 1 [] (.function c9_ret_fn) (.number 3) 4 rfl

/-- C10: whenever `visit_lambda_expression` succeeds it emits
`Load(Function …)` whose function has arity 0 — the parameter count is
computed but never copied into the function (unlike
`visit_function_statement`) — and the VM's `Call` arity check then
fails for every call that passes one or more arguments to an arity-0
function, with the `Expect 0 arguments…` runtime error. -/
theorem c10_lambda_arity_zero :
    (∀ (fuel : Nat) (params : List Token) (body : List Statement)
       (st st' : ConvState) (u : Unit),
      Convertor.visit_lambda_expression fuel params body st = .ok u st' →
        ∃ f : Function, f.arity = 0 ∧ st'.codes = st.codes ++ [.Load (.function f)])
    ∧ (∀ (fr : CallFrame) (g : List (String × Literal)) (frs : List CallFrame)
         (s args : List Literal) (f : Function) (n : Nat),
        args.length = n → f.arity = 0 → 1 ≤ n →
          VirtualMachine.exec_op fr ⟨s ++ .function f :: args, g, frs⟩ (.Call n) =
            .fail ("Expect 0 arguments but got " ++ toString n ++ ".")) :=
  ⟨Convertor.visit_lambda_emits_arity0,
   fun fr g frs s args f n h1 h2 h3 =>
     VirtualMachine.exec_call_arity_fail fr g frs s args f n h1 h2 h3⟩

/-- C10 witness: the lambda `func (x) {}` converted in a fresh entry
state emits an arity-0 function, and calling an arity-0 function with
one argument fails the arity check. -/
theorem c10_lambda_arity_zero_witness :
    (∃ f : Function, f.arity = 0 ∧
      c10_state'.codes = c10_state.codes ++ [.Load (.function f)])
    ∧ VirtualMachine.exec_op ⟨c10_lam_fn, 1, 0⟩
        ⟨[] ++ .function c10_lam_fn :: [.number 5], [], []⟩ (.Call 1) =
          .fail ("Expect 0 arguments but got " ++ toString 1 ++ ".") :=
  ⟨c10_lambda_arity_zero.1 9 [ident_token "x"] [] c10_state c10_state' () rfl,
   c10_lambda_arity_zero.2 ⟨c10_lam_fn, 1, 0⟩ [] [] [] [.number 5] c10_lam_fn 1 rfl rfl
     (by decide)⟩

end RLox
